import Mathlib

/-! SCA_ArmatureActuator.

A shallow embedding of `source/gameengine/GameLogic/SCA_ArmatureActuator.cpp`.

Pointers are addresses (`Ptr`, with `NULL` the zero address).  A method of the
actuator is a function of the actuator's own address (`self`, the C++ `this`),
the actuator's fields, and the part of the scene it reads or writes; it returns
the new fields and the new scene.  `float`/`double` values are carried as exact
rationals: the actuator only stores and forwards them.
-/

namespace ArmatureActuator

/-- Address of a scene object, an actuator or a constraint. -/
abbrev Ptr := Nat

/-- The null pointer. -/
def NULL : Ptr := 0

/-! ## Collaborators that are declared outside this file -/

/-- Modelled from the spec: the operation selectors of `DNA_actuator_types.h`
(not in the sources), numbered in the order the spec lists the closed set
Run, Enable, Disable, SetTarget, SetWeight, SetInfluence. -/
def ACT_ARM_RUN : Int := 0

/-- Modelled from the spec: selector Enable (see `ACT_ARM_RUN`). -/
def ACT_ARM_ENABLE : Int := 1

/-- Modelled from the spec: selector Disable (see `ACT_ARM_RUN`). -/
def ACT_ARM_DISABLE : Int := 2

/-- Modelled from the spec: selector SetTarget (see `ACT_ARM_RUN`). -/
def ACT_ARM_SETTARGET : Int := 3

/-- Modelled from the spec: selector SetWeight (see `ACT_ARM_RUN`). -/
def ACT_ARM_SETWEIGHT : Int := 4

/-- Modelled from the spec: selector SetInfluence (see `ACT_ARM_RUN`). -/
def ACT_ARM_SETINFLUENCE : Int := 5

/-- Modelled from the spec: the object-type tag `SCA_IObject::OBJ_ARMATURE` of an
armature-capable object (the enumeration is not in the sources). -/
def OBJ_ARMATURE : Nat := 0

/-- Modelled from the spec: the external constraint (`BL_ArmatureConstraint`, not
in the sources): a rule with an enable/disable flag, target, subtarget, weight
and influence, each written by one setter. -/
structure BL_ArmatureConstraint where
  disabled : Bool
  target : Ptr
  subtarget : Ptr
  weight : Rat
  influence : Rat
deriving DecidableEq

/-- Modelled from the spec: `setDisabledFlag(true)`, the effect of
`SetConstraintFlag(CONSTRAINT_OFF)`. -/
def BL_ArmatureConstraint.SetConstraintFlag_OFF (c : BL_ArmatureConstraint) :
    BL_ArmatureConstraint :=
  { c with disabled := true }

/-- Modelled from the spec: `setDisabledFlag(false)`, the effect of
`ClrConstraintFlag(CONSTRAINT_OFF)`. -/
def BL_ArmatureConstraint.ClrConstraintFlag_OFF (c : BL_ArmatureConstraint) :
    BL_ArmatureConstraint :=
  { c with disabled := false }

/-- Modelled from the spec: `setTarget(obj)` of the constraint handle. -/
def BL_ArmatureConstraint.SetTarget (c : BL_ArmatureConstraint) (obj : Ptr) :
    BL_ArmatureConstraint :=
  { c with target := obj }

/-- Modelled from the spec: `setSubtarget(obj)` of the constraint handle. -/
def BL_ArmatureConstraint.SetSubtarget (c : BL_ArmatureConstraint) (obj : Ptr) :
    BL_ArmatureConstraint :=
  { c with subtarget := obj }

/-- Modelled from the spec: `setWeight(float)` of the constraint handle. -/
def BL_ArmatureConstraint.SetWeight (c : BL_ArmatureConstraint) (v : Rat) :
    BL_ArmatureConstraint :=
  { c with weight := v }

/-- Modelled from the spec: `setInfluence(float)` of the constraint handle. -/
def BL_ArmatureConstraint.SetInfluence (c : BL_ArmatureConstraint) (v : Rat) :
    BL_ArmatureConstraint :=
  { c with influence := v }

/-- Modelled from the spec: a scene object (`SCA_IObject` / `KX_GameObject` /
`BL_ArmatureObject`, none of them in the sources): its object type, its
registered-actuator set (kept as a list of actuator addresses), its constraint
registry keyed by pose channel and constraint name (`NULL` on a miss), and the
times at which `advanceTimestep` was invoked on it, oldest first. -/
structure SCA_IObject where
  m_objectType : Nat
  m_registeredActuators : List Ptr
  m_constraints : String → String → Ptr
  m_timesteps : List Rat

/-- Modelled from the spec: `RegisterActuator(unit)` adds the unit to the
object's registered-actuator set (a unit is registered at most once). -/
def SCA_IObject.RegisterActuator (o : SCA_IObject) (act : Ptr) : SCA_IObject :=
  if act ∈ o.m_registeredActuators then o
  else { o with m_registeredActuators := o.m_registeredActuators ++ [act] }

/-- Modelled from the spec: `UnregisterActuator(unit)` removes the unit from the
object's registered-actuator set. -/
def SCA_IObject.UnregisterActuator (o : SCA_IObject) (act : Ptr) : SCA_IObject :=
  { o with m_registeredActuators := o.m_registeredActuators.filter (fun x => x != act) }

/-- Modelled from the spec: `GetGameObjectType()`. -/
def SCA_IObject.GetGameObjectType (o : SCA_IObject) : Nat := o.m_objectType

/-- Modelled from the spec: the constraint registry
`lookup(owningObject, poseChannelName, constraintName)`, `NULL` when absent. -/
def SCA_IObject.GetConstraint (o : SCA_IObject) (posechannel constraintname : String) : Ptr :=
  o.m_constraints posechannel constraintname

/-- Modelled from the spec: `advanceTimestep(currentTime)` on the owning object;
each invocation is recorded. -/
def SCA_IObject.UpdateTimestep (o : SCA_IObject) (curtime : Rat) : SCA_IObject :=
  { o with m_timesteps := o.m_timesteps ++ [curtime] }

/-- The shared, externally owned objects the actuator works on: scene objects and
constraints, each addressed by pointer. -/
structure Scene where
  objs : Ptr → SCA_IObject
  cons : Ptr → BL_ArmatureConstraint

/-- The call `obj->RegisterActuator(act)`. -/
def Scene.RegisterActuator (w : Scene) (obj act : Ptr) : Scene :=
  { w with objs := Function.update w.objs obj ((w.objs obj).RegisterActuator act) }

/-- The call `obj->UnregisterActuator(act)`. -/
def Scene.UnregisterActuator (w : Scene) (obj act : Ptr) : Scene :=
  { w with objs := Function.update w.objs obj ((w.objs obj).UnregisterActuator act) }

/-- The call `obj->UpdateTimestep(curtime)`. -/
def Scene.UpdateTimestep (w : Scene) (obj : Ptr) (curtime : Rat) : Scene :=
  { w with objs := Function.update w.objs obj ((w.objs obj).UpdateTimestep curtime) }

/-- A call `c->method(...)` on the constraint at address `c`. -/
def Scene.onConstraint (w : Scene) (c : Ptr)
    (method : BL_ArmatureConstraint → BL_ArmatureConstraint) : Scene :=
  { w with cons := Function.update w.cons c (method (w.cons c)) }

/-- The unit `act` is in the registered-actuator set of the object at `obj`. -/
def Scene.registered (w : Scene) (obj act : Ptr) : Prop :=
  act ∈ (w.objs obj).m_registeredActuators

instance (w : Scene) (obj act : Ptr) : Decidable (w.registered obj act) := by
  unfold Scene.registered; infer_instance

/-- Modelled from the spec: the base class `SCA_IActuator` (not in the sources):
the owning object and the pending trigger events supplied by the scheduler. -/
structure SCA_IActuator where
  m_gameobj : Ptr
  m_posevent : Bool
  m_negevent : Bool
deriving DecidableEq

/-- Modelled from the spec: base constructor `SCA_IActuator(obj, type)`: attached
to the owning object, no event queued. -/
def SCA_IActuator.Construct (obj : Ptr) : SCA_IActuator :=
  { m_gameobj := obj, m_posevent := false, m_negevent := false }

/-- The `std::map<void *, void *>` handed to `Relink`: a partial function from
old to new addresses (`none`: the key is not in the map). -/
abbrev ObjMap := Ptr → Option Ptr

/-- The expression `obj_map[key]` of `std::map`: the stored value, or, for a key
that is missing, a freshly inserted null value. -/
def ObjMap.index (obj_map : ObjMap) (key : Ptr) : Ptr × ObjMap :=
  match obj_map key with
  | some v => (v, obj_map)
  | none => (NULL, Function.update obj_map key (some NULL))

/-- The object the map holds for `key`: the value of `obj_map[key]`, which is null
both for a missing key and for a key mapped to null. -/
def ObjMap.find (obj_map : ObjMap) (key : Ptr) : Ptr := (obj_map.index key).1

/-- The map that sends `old` to `new` and has no other key. -/
def ObjMap.single (old new : Ptr) : ObjMap := fun k => if k = old then some new else none

/-! ## The actuator -/

/-- The fields of `SCA_ArmatureActuator`. -/
structure SCA_ArmatureActuator extends SCA_IActuator where
  m_constraint : Ptr
  m_gametarget : Ptr
  m_gamesubtarget : Ptr
  m_posechannel : String
  m_constraintname : String
  m_weight : Rat
  m_influence : Rat
  m_type : Int
deriving DecidableEq

namespace SCA_ArmatureActuator

/-- Modelled from the spec: `IsNegativeEvent()` of the base class: a negative
edge is a step with no pending positive trigger. -/
def IsNegativeEvent (a : SCA_ArmatureActuator) : Bool := !a.m_posevent

/-- Modelled from the spec: `RemoveAllEvents()` of the base class drains the
queued trigger events. -/
def RemoveAllEvents (a : SCA_ArmatureActuator) : SCA_ArmatureActuator :=
  { a with m_posevent := false, m_negevent := false }

/-- Modelled from the spec: `GetParent()` of the base class, the owning object. -/
def GetParent (a : SCA_ArmatureActuator) : Ptr := a.m_gameobj

/-- Modelled from the spec: `SCA_IActuator::ProcessReplica()` of the base class;
the spec gives the clone the same configuration and names no further effect. -/
def SCA_IActuator_ProcessReplica (a : SCA_ArmatureActuator) : SCA_ArmatureActuator := a

/-- Modelled from the spec: `SCA_IActuator::ReParent(parent)` of the base class
reassigns the owning object. -/
def SCA_IActuator_ReParent (a : SCA_ArmatureActuator) (parent : Ptr) : SCA_ArmatureActuator :=
  { a with m_gameobj := parent }

/-- `SCA_ArmatureActuator::FindConstraint` (lines 134-142). -/
def FindConstraint (a : SCA_ArmatureActuator) (w : Scene) : SCA_ArmatureActuator :=
  let a1 := { a with m_constraint := NULL }
  if (w.objs a1.m_gameobj).GetGameObjectType = OBJ_ARMATURE then
    { a1 with m_constraint :=
        (w.objs a1.m_gameobj).GetConstraint a1.m_posechannel a1.m_constraintname }
  else a1

/-- The constructor `SCA_ArmatureActuator::SCA_ArmatureActuator` (lines 44-67);
`self` is the address of the unit being built. -/
def Construct (self : Ptr) (w : Scene) (obj : Ptr) (type : Int)
    (posechannel constraintname : String) (targetobj subtargetobj : Ptr)
    (weight influence : Rat) : SCA_ArmatureActuator × Scene :=
  let a : SCA_ArmatureActuator :=
    { toSCA_IActuator := SCA_IActuator.Construct obj
      m_constraint := NULL
      m_gametarget := targetobj
      m_gamesubtarget := subtargetobj
      m_posechannel := posechannel
      m_constraintname := constraintname
      m_weight := weight
      m_influence := influence
      m_type := type }
  let w1 := if a.m_gametarget ≠ NULL then w.RegisterActuator a.m_gametarget self else w
  let w2 := if a.m_gamesubtarget ≠ NULL then w1.RegisterActuator a.m_gamesubtarget self else w1
  (a.FindConstraint w2, w2)

/-- The destructor `SCA_ArmatureActuator::~SCA_ArmatureActuator` (lines 69-75). -/
def Destruct (self : Ptr) (a : SCA_ArmatureActuator) (w : Scene) : Scene :=
  let w1 := if a.m_gametarget ≠ NULL then w.UnregisterActuator a.m_gametarget self else w
  if a.m_gamesubtarget ≠ NULL then w1.UnregisterActuator a.m_gamesubtarget self else w1

/-- `SCA_ArmatureActuator::ProcessReplica` (lines 83-91), run on the replica at
address `self`. -/
def ProcessReplica (self : Ptr) (a : SCA_ArmatureActuator) (w : Scene) :
    SCA_ArmatureActuator × Scene :=
  let w1 := if a.m_gametarget ≠ NULL then w.RegisterActuator a.m_gametarget self else w
  let w2 := if a.m_gamesubtarget ≠ NULL then w1.UnregisterActuator a.m_gamesubtarget self else w1
  (a.SCA_IActuator_ProcessReplica, w2)

/-- `GetReplica` (lines 77-81): the copy constructor copies every field into the
new unit at address `replica`, then `ProcessReplica` runs on the copy. -/
def GetReplica (a : SCA_ArmatureActuator) (replica : Ptr) (w : Scene) :
    SCA_ArmatureActuator × Scene :=
  let r : SCA_ArmatureActuator := a
  r.ProcessReplica replica w

/-- `SCA_ArmatureActuator::ReParent` (lines 93-98). -/
def ReParent (a : SCA_ArmatureActuator) (w : Scene) (parent : Ptr) : SCA_ArmatureActuator :=
  (a.SCA_IActuator_ReParent parent).FindConstraint w

/-- `SCA_ArmatureActuator::UnlinkObject` (lines 100-114). -/
def UnlinkObject (a : SCA_ArmatureActuator) (clientobj : Ptr) : Bool × SCA_ArmatureActuator :=
  let res := false
  let r1 : Bool × SCA_ArmatureActuator :=
    if clientobj = a.m_gametarget then (true, { a with m_gametarget := NULL }) else (res, a)
  let r2 : Bool × SCA_ArmatureActuator :=
    if clientobj = r1.2.m_gamesubtarget then (true, { r1.2 with m_gamesubtarget := NULL })
    else r1
  r2

/-- `SCA_ArmatureActuator::Relink` (lines 116-132). -/
def Relink (self : Ptr) (a : SCA_ArmatureActuator) (w : Scene) (obj_map : ObjMap) :
    SCA_ArmatureActuator × Scene × ObjMap :=
  let i1 := obj_map.index a.m_gametarget
  let h_obj := i1.1
  let s1 : SCA_ArmatureActuator × Scene :=
    if h_obj ≠ NULL then
      let w1 := if a.m_gametarget ≠ NULL then w.UnregisterActuator a.m_gametarget self else w
      ({ a with m_gametarget := h_obj }, w1.RegisterActuator h_obj self)
    else (a, w)
  let i2 := i1.2.index s1.1.m_gamesubtarget
  let h_obj := i2.1
  let s2 : SCA_ArmatureActuator × Scene :=
    if h_obj ≠ NULL then
      let w2 :=
        if s1.1.m_gamesubtarget ≠ NULL then s1.2.UnregisterActuator s1.1.m_gamesubtarget self
        else s1.2
      ({ s1.1 with m_gamesubtarget := h_obj }, w2.RegisterActuator h_obj self)
    else s1
  (s2.1, s2.2, i2.2)

/-- `SCA_ArmatureActuator::Update` (lines 144-195).  The `switch` has no
`default`: a selector outside the six cases falls through. -/
def Update (a : SCA_ArmatureActuator) (w : Scene) (curtime : Rat) (_frame : Bool) :
    Bool × SCA_ArmatureActuator × Scene :=
  let result := false
  let bNegativeEvent := a.IsNegativeEvent
  let a := a.RemoveAllEvents
  if !bNegativeEvent then
    let obj := a.GetParent
    if a.m_type = ACT_ARM_RUN then
      (true, a, w.UpdateTimestep obj curtime)
    else if a.m_type = ACT_ARM_ENABLE then
      (result, a,
        if a.m_constraint ≠ NULL then
          w.onConstraint a.m_constraint BL_ArmatureConstraint.ClrConstraintFlag_OFF
        else w)
    else if a.m_type = ACT_ARM_DISABLE then
      (result, a,
        if a.m_constraint ≠ NULL then
          w.onConstraint a.m_constraint BL_ArmatureConstraint.SetConstraintFlag_OFF
        else w)
    else if a.m_type = ACT_ARM_SETTARGET then
      (result, a,
        if a.m_constraint ≠ NULL then
          (w.onConstraint a.m_constraint (fun c => c.SetTarget a.m_gametarget)).onConstraint
            a.m_constraint (fun c => c.SetSubtarget a.m_gamesubtarget)
        else w)
    else if a.m_type = ACT_ARM_SETWEIGHT then
      (result, a,
        if a.m_constraint ≠ NULL then
          w.onConstraint a.m_constraint (fun c => c.SetWeight a.m_weight)
        else w)
    else if a.m_type = ACT_ARM_SETINFLUENCE then
      (result, a,
        if a.m_constraint ≠ NULL then
          w.onConstraint a.m_constraint (fun c => c.SetInfluence a.m_influence)
        else w)
    else (result, a, w)
  else (result, a, w)

end SCA_ArmatureActuator

/-- The registration calls `Relink` makes for one reference field that holds
`old` and for which the map holds `new`: none when `new` is null; otherwise
unregister from `old` (when non-null), then register with `new`. -/
def Scene.retarget (w : Scene) (self old new : Ptr) : Scene :=
  if new ≠ NULL then
    (if old ≠ NULL then w.UnregisterActuator old self else w).RegisterActuator new self
  else w

/-! ## Scripting attributes (lines 230-278) -/

/-- Modelled from the spec: the setter result for an accepted value. -/
def PY_SET_ATTR_SUCCESS : Int := 0

/-- Modelled from the spec: the setter result for a configuration error. -/
def PY_SET_ATTR_FAIL : Int := 1

/-- Modelled from the spec: a value of the scripting layer as far as the
accessors tell values apart: the absent value, the proxy of a scene object, or
anything else. -/
inductive PyObject where
  | None
  | GameObjectProxy (obj : Ptr)
  | Other
deriving DecidableEq

/-- Modelled from the spec: `ConvertPythonToGameObject(..., value, &gameobj,
py_none_ok, ...)`, the type validation of an object reference: a valid
scene-object reference, or absent when `py_none_ok`; `none` is a failed
conversion. -/
def ConvertPythonToGameObject (value : PyObject) (py_none_ok : Bool) : Option Ptr :=
  match value with
  | PyObject.None => if py_none_ok then some NULL else none
  | PyObject.GameObjectProxy obj => some obj
  | PyObject.Other => none

/-- Modelled from the spec: the setter declared by
`KX_PYATTRIBUTE_FLOAT_RW(name, min, max, object, field)` (the macro is not in the
sources): range validation, a value outside `[min, max]` is a configuration
error and the field keeps its value. -/
def KX_PYATTRIBUTE_FLOAT_RW (min max : Rat) (field value : Rat) : Int × Rat :=
  if min ≤ value ∧ value ≤ max then (PY_SET_ATTR_SUCCESS, value) else (PY_SET_ATTR_FAIL, field)

namespace SCA_ArmatureActuator

/-- The `weight` row of `SCA_ArmatureActuator::Attributes` (line 234). -/
def pyattr_set_weight (a : SCA_ArmatureActuator) (value : Rat) : Int × SCA_ArmatureActuator :=
  let r := KX_PYATTRIBUTE_FLOAT_RW 0 1 a.m_weight value
  (r.1, { a with m_weight := r.2 })

/-- The `influence` row of `SCA_ArmatureActuator::Attributes` (line 235). -/
def pyattr_set_influence (a : SCA_ArmatureActuator) (value : Rat) :
    Int × SCA_ArmatureActuator :=
  let r := KX_PYATTRIBUTE_FLOAT_RW 0 1 a.m_influence value
  (r.1, { a with m_influence := r.2 })

/-- `SCA_ArmatureActuator::pyattr_get_object` (lines 240-248); `GetProxy()` of a
scene object is its proxy value. -/
def pyattr_get_object (a : SCA_ArmatureActuator) (attrdef_m_name : String) : PyObject :=
  let target := if attrdef_m_name = "target" then a.m_gametarget else a.m_gamesubtarget
  if target = NULL then PyObject.None else PyObject.GameObjectProxy target

/-- `SCA_ArmatureActuator::pyattr_set_object` (lines 250-268).  `target` is a
local pointer variable initialised with a copy of the member; the assignment
`target = gameobj` writes the local variable. -/
def pyattr_set_object (self : Ptr) (a : SCA_ArmatureActuator) (w : Scene)
    (attrdef_m_name : String) (value : PyObject) : Int × SCA_ArmatureActuator × Scene :=
  let target := if attrdef_m_name = "target" then a.m_gametarget else a.m_gamesubtarget
  match ConvertPythonToGameObject value true with
  | none => (PY_SET_ATTR_FAIL, a, w)
  | some gameobj =>
    let w := if target ≠ NULL then w.UnregisterActuator target self else w
    let target := gameobj
    let w := if target ≠ NULL then w.RegisterActuator target self else w
    (PY_SET_ATTR_SUCCESS, a, w)

end SCA_ArmatureActuator

/-- A configuration change made through the scripting attributes `weight` and
`influence`. -/
inductive Configure where
  | weight (value : Rat)
  | influence (value : Rat)

/-- The unit after one attribute assignment (accepted or rejected). -/
def SCA_ArmatureActuator.configure (a : SCA_ArmatureActuator) : Configure → SCA_ArmatureActuator
  | Configure.weight value => (a.pyattr_set_weight value).2
  | Configure.influence value => (a.pyattr_set_influence value).2

/-- Both scalars of the unit lie in the closed range from 0 to 1. -/
def SCA_ArmatureActuator.InRange (a : SCA_ArmatureActuator) : Prop :=
  0 ≤ a.m_weight ∧ a.m_weight ≤ 1 ∧ 0 ≤ a.m_influence ∧ a.m_influence ≤ 1

/-! ## Units in a scene -/

/-- A scene together with the live units, each at its address. -/
structure World where
  scene : Scene
  units : Ptr → Option SCA_ArmatureActuator

/-- A lifecycle call made by the object-graph layer on the unit at `self`. -/
inductive Call where
  | Construct (self : Ptr) (obj : Ptr) (type : Int) (posechannel constraintname : String)
      (targetobj subtargetobj : Ptr) (weight influence : Rat)
  | Clone (self replica : Ptr)
  | Unlink (self clientobj : Ptr)
  | Remap (self : Ptr) (obj_map : ObjMap)

/-- The effect of one lifecycle call.  A new unit is placed at an address that
holds no live unit; a call that names an address in use for a new unit, or no
live unit as its receiver, is not a call of the program and changes nothing. -/
def World.call (W : World) : Call → World
  | Call.Construct self obj type posechannel constraintname targetobj subtargetobj
      weight influence =>
    match W.units self with
    | some _ => W
    | none =>
      let r := SCA_ArmatureActuator.Construct self W.scene obj type posechannel constraintname
        targetobj subtargetobj weight influence
      { scene := r.2, units := Function.update W.units self (some r.1) }
  | Call.Clone self replica =>
    match W.units self, W.units replica with
    | some a, none =>
      let r := a.GetReplica replica W.scene
      { scene := r.2, units := Function.update W.units replica (some r.1) }
    | _, _ => W
  | Call.Unlink self clientobj =>
    match W.units self with
    | some a => { W with units := Function.update W.units self (some (a.UnlinkObject clientobj).2) }
    | none => W
  | Call.Remap self obj_map =>
    match W.units self with
    | some a =>
      let r := a.Relink self W.scene obj_map
      { scene := r.2.1, units := Function.update W.units self (some r.1) }
    | none => W

/-- The effect of a sequence of lifecycle calls, first call first. -/
def World.run (W : World) (calls : List Call) : World :=
  calls.foldl World.call W

/-- The registration invariant of the spec: for every scene object `O`, the units
registered with `O` are exactly the live units whose target or subtarget is `O`. -/
def World.RegistrationInvariant (W : World) : Prop :=
  ∀ O u : Ptr, O ≠ NULL →
    (W.scene.registered O u ↔
      ∃ a, W.units u = some a ∧ (a.m_gametarget = O ∨ a.m_gamesubtarget = O))

/-- One half of the registration invariant: every live unit is registered with
the objects its target and subtarget refer to. -/
def World.Tracked (W : World) : Prop :=
  ∀ (O u : Ptr) (a : SCA_ArmatureActuator), O ≠ NULL → W.units u = some a →
    (a.m_gametarget = O ∨ a.m_gamesubtarget = O) → W.scene.registered O u

/-- A map under which the subtarget step of `Relink` does not unregister the unit
from its new target: when both fields have a non-null image and the new target
is the old subtarget, the new subtarget is that object too. -/
def SCA_ArmatureActuator.RemapKeepsNewTarget (a : SCA_ArmatureActuator) (m : ObjMap) : Prop :=
  m.find a.m_gamesubtarget ≠ NULL → m.find a.m_gametarget ≠ NULL →
    m.find a.m_gametarget = a.m_gamesubtarget → m.find a.m_gamesubtarget = m.find a.m_gametarget

/-- The calls under which the registration bookkeeping is kept: every
`Construct`, no `Clone`, `Unlink` only when `withUnlink`, and a `Remap` whose map
satisfies `RemapKeepsNewTarget` for the receiving unit. -/
def Call.Admissible (withUnlink : Bool) (W : World) : Call → Prop
  | Call.Construct _ _ _ _ _ _ _ _ _ => True
  | Call.Clone _ _ => False
  | Call.Unlink _ _ => withUnlink = true
  | Call.Remap self obj_map => ∀ a, W.units self = some a → a.RemapKeepsNewTarget obj_map

/-- Every call of the sequence is admissible in the state it is made in. -/
def World.Admissible (withUnlink : Bool) : World → List Call → Prop
  | _, [] => True
  | W, c :: cs => c.Admissible withUnlink W ∧ World.Admissible withUnlink (W.call c) cs

/-- A scene before any unit exists: no live unit, nothing registered. -/
def World.Initial (W : World) : Prop :=
  (∀ u, W.units u = none) ∧ ∀ O, (W.scene.objs O).m_registeredActuators = []

/-- The object-graph layer re-parents the unit at `self` to the object `parent`;
without a live unit at `self` nothing happens. -/
def World.ReParent (W : World) (self parent : Ptr) : World :=
  match W.units self with
  | some a => { W with units := Function.update W.units self (some (a.ReParent W.scene parent)) }
  | none => W

/-- The unit at `self` is destroyed: its destructor runs and its address no longer
holds a live unit; without a live unit at `self` nothing happens. -/
def World.Destroy (W : World) (self : Ptr) : World :=
  match W.units self with
  | some a =>
    { scene := SCA_ArmatureActuator.Destruct self a W.scene
      units := Function.update W.units self none }
  | none => W

/-- The call is a `Construct`, a `Clone` or a `Remap`. -/
def Call.NoUnlink : Call → Prop
  | Call.Unlink _ _ => False
  | _ => True

/-- Every registration is accounted for by a reference: a unit registered with
`O` is live, `O` is a real object, and the unit's target or subtarget is `O`. -/
def World.Accounted (W : World) : Prop :=
  ∀ O u : Ptr, W.scene.registered O u →
    O ≠ NULL ∧ ∃ a, W.units u = some a ∧ (a.m_gametarget = O ∨ a.m_gamesubtarget = O)

/-- The unit `u` is live and its target or subtarget is the object `O`. -/
def World.refers (W : World) (O u : Ptr) : Prop :=
  ∃ a, W.units u = some a ∧ (a.m_gametarget = O ∨ a.m_gamesubtarget = O)

/-- The pairs (object, unit) at which the registration invariant is not claimed.
`stale O u`: the unit may be registered with `O` without referring to it.
`missing O u`: the unit may refer to `O` without being registered with it. -/
structure Ledger where
  stale : Ptr → Ptr → Bool
  missing : Ptr → Ptr → Bool

/-- No pair is excepted. -/
def Ledger.empty : Ledger := { stale := fun _ _ => false, missing := fun _ _ => false }

/-- How one lifecycle call, made in the world `W`, changes the excepted pairs.
`Construct` changes nothing. `Clone` adds (subtarget, replica) to `missing` when
the cloned unit has a subtarget. `Unlink(D)` on a unit that refers to `D` adds
(`D`, unit) to `stale`, and takes it out of `missing` (the unit no longer refers
to `D`). `Remap` of a unit takes (`O`, unit) out of `stale` when `O` is one of
its new references; it puts (new target, unit) into `missing` when both fields
have a non-null image, the new target is the old subtarget and the new subtarget
is another object; and it keeps (`O`, unit) in `missing` only if `O` is still
referred to by a field without a non-null image and is not one of the images. -/
def Ledger.call (L : Ledger) (W : World) : Call → Ledger
  | Call.Construct _ _ _ _ _ _ _ _ _ => L
  | Call.Clone self replica =>
    match W.units self, W.units replica with
    | some a, none =>
      { L with missing := fun O u =>
          decide (L.missing O u = true ∨
            (u = replica ∧ O = a.m_gamesubtarget ∧ a.m_gamesubtarget ≠ NULL)) }
    | _, _ => L
  | Call.Unlink self clientobj =>
    match W.units self with
    | some a =>
      { stale := fun O u =>
          decide (L.stale O u = true ∨
            (u = self ∧ O = clientobj ∧
              (a.m_gametarget = clientobj ∨ a.m_gamesubtarget = clientobj)))
        missing := fun O u => decide (L.missing O u = true ∧ ¬ (u = self ∧ O = clientobj)) }
    | none => L
  | Call.Remap self obj_map =>
    match W.units self with
    | some a =>
      let t := a.m_gametarget
      let s := a.m_gamesubtarget
      let ht := obj_map.find t
      let hs := obj_map.find s
      { stale := fun O u =>
          decide (L.stale O u = true ∧
            ¬ (u = self ∧
              ((if ht ≠ NULL then ht else t) = O ∨ (if hs ≠ NULL then hs else s) = O)))
        missing := fun O u =>
          decide (if u = self then
            (hs ≠ NULL ∧ ht ≠ NULL ∧ O = ht ∧ ht = s ∧ hs ≠ ht) ∨
            (L.missing O u = true ∧ ¬ (ht ≠ NULL ∧ O = ht) ∧ ¬ (hs ≠ NULL ∧ O = hs) ∧
              ((ht = NULL ∧ O = t) ∨ (hs = NULL ∧ O = s)))
          else L.missing O u = true) }
    | none => L

/-- The excepted pairs after a sequence of calls made from the world `W`, first
call first. -/
def Ledger.run : Ledger → World → List Call → Ledger
  | L, _, [] => L
  | L, W, c :: cs => Ledger.run (L.call W c) (W.call c) cs

/-- A call that adds no excepted pair: any `Construct`; a `Clone` of a unit
without subtarget; an `Unlink(D)` on a unit that does not refer to `D`; a `Remap`
whose map satisfies `RemapKeepsNewTarget` for the receiving unit. -/
def Call.Clean (W : World) : Call → Prop
  | Call.Construct _ _ _ _ _ _ _ _ _ => True
  | Call.Clone self _ => ∀ a, W.units self = some a → a.m_gamesubtarget = NULL
  | Call.Unlink self clientobj =>
    ∀ a, W.units self = some a → a.m_gametarget ≠ clientobj ∧ a.m_gamesubtarget ≠ clientobj
  | Call.Remap self obj_map => ∀ a, W.units self = some a → a.RemapKeepsNewTarget obj_map

/-- Every call of the sequence is clean in the state it is made in. -/
def World.Clean : World → List Call → Prop
  | _, [] => True
  | W, c :: cs => c.Clean W ∧ World.Clean (W.call c) cs

/-- Outside the excepted pairs the registration invariant holds: at a pair that
is not `stale` a registered unit refers to the object, and at a pair that is not
`missing` a unit that refers to the object is registered with it. -/
def World.Sound (W : World) (L : Ledger) : Prop :=
  ∀ O u : Ptr, O ≠ NULL →
    (L.stale O u = false → W.scene.registered O u → W.refers O u) ∧
    (L.missing O u = false → W.refers O u → W.scene.registered O u)

/-! ## Sample data -/

/-- A constraint with nothing set. -/
def sampleConstraint : BL_ArmatureConstraint :=
  { disabled := false, target := NULL, subtarget := NULL, weight := 0, influence := 0 }

/-- An armature object whose registry resolves every (channel, constraint) pair
to the constraint at address 7; nothing registered, no timestep taken. -/
def sampleObject : SCA_IObject :=
  { m_objectType := OBJ_ARMATURE
    m_registeredActuators := []
    m_constraints := fun _ _ => 7
    m_timesteps := [] }

/-- A scene in which every address holds `sampleObject` / `sampleConstraint`. -/
def sampleScene : Scene :=
  { objs := fun _ => sampleObject, cons := fun _ => sampleConstraint }

/-- A unit owned by object 5, with resolved handle 7, target 1 and subtarget 2,
and the given selector and pending positive event. -/
def sampleUnit (type : Int) (posevent : Bool) : SCA_ArmatureActuator :=
  { m_gameobj := 5, m_posevent := posevent, m_negevent := !posevent
    m_constraint := 7, m_gametarget := 1, m_gamesubtarget := 2
    m_posechannel := "Bone", m_constraintname := "IK"
    m_weight := 3 / 4, m_influence := 1 / 2, m_type := type }

/-- The unit `sampleUnit` with target and subtarget both at object 1. -/
def aliasedUnit : SCA_ArmatureActuator :=
  { sampleUnit ACT_ARM_RUN false with m_gamesubtarget := 1 }

/-- The result of constructing, in `sampleScene`, a unit at address 10 owned by
object 5 with target 1, subtarget 2, and the given weight. -/
def constructed (weight : Rat) : SCA_ArmatureActuator × Scene :=
  SCA_ArmatureActuator.Construct 10 sampleScene 5 ACT_ARM_SETWEIGHT "Bone" "IK" 1 2 weight (1 / 2)

/-- A map with the chain 1 to 2, 2 to 3. -/
def chainMap : ObjMap := fun k => if k = 1 then some 2 else if k = 2 then some 3 else none

/-- The world with `sampleScene` and no unit. -/
def sampleWorld : World := { scene := sampleScene, units := fun _ => none }

/-- The call that builds a unit at address 10, owned by object 5, with target 1
and subtarget 2. -/
def sampleConstruct : Call :=
  Call.Construct 10 5 ACT_ARM_SETTARGET "Bone" "IK" 1 2 (3 / 4) (1 / 2)

/-! ## Theorems -/

open SCA_ArmatureActuator

/-- C7: on a negative edge (no pending positive event) `Update` returns false and
leaves the whole scene unchanged (every field of every constraint, and the
timestep record of every object); the unit itself only has its queued events
drained. This holds for every selector and for a resolved or unresolved handle. -/
theorem update_negative_edge (a : SCA_ArmatureActuator) (w : Scene) (curtime : Rat)
    (frame : Bool) (hneg : a.m_posevent = false) :
    (a.Update w curtime frame).1 = false ∧
    (a.Update w curtime frame).2.2 = w ∧
    (a.Update w curtime frame).2.1 = a.RemoveAllEvents := by
  simp [Update, IsNegativeEvent, hneg]

/-- Witness of `update_negative_edge` on a unit with selector Disable. -/
theorem update_negative_edge_witness :
    (sampleUnit ACT_ARM_DISABLE false).m_posevent = false ∧
    ((sampleUnit ACT_ARM_DISABLE false).Update sampleScene 3 true).1 = false ∧
    ((sampleUnit ACT_ARM_DISABLE false).Update sampleScene 3 true).2.2 = sampleScene ∧
    ((sampleUnit ACT_ARM_DISABLE false).Update sampleScene 3 true).2.1
      = (sampleUnit ACT_ARM_DISABLE false).RemoveAllEvents :=
  ⟨rfl, update_negative_edge (sampleUnit ACT_ARM_DISABLE false) sampleScene 3 true rfl⟩

/-- C8: with selector Run and a pending positive event, `Update` returns true and
invokes `UpdateTimestep(curtime)` exactly once on the owning object: the owner
records exactly one more timestep, the supplied `curtime`; every other object,
every registration set and every constraint are unchanged. No assumption is made
on the constraint handle. -/
theorem update_run (a : SCA_ArmatureActuator) (w : Scene) (curtime : Rat) (frame : Bool)
    (hpos : a.m_posevent = true) (hrun : a.m_type = ACT_ARM_RUN) :
    (a.Update w curtime frame).1 = true ∧
    (a.Update w curtime frame).2.2 = w.UpdateTimestep a.m_gameobj curtime ∧
    ((a.Update w curtime frame).2.2.objs a.m_gameobj).m_timesteps
      = (w.objs a.m_gameobj).m_timesteps ++ [curtime] ∧
    (∀ o, o ≠ a.m_gameobj → (a.Update w curtime frame).2.2.objs o = w.objs o) ∧
    (∀ o, ((a.Update w curtime frame).2.2.objs o).m_registeredActuators
      = (w.objs o).m_registeredActuators) ∧
    (a.Update w curtime frame).2.2.cons = w.cons := by
  have hU : a.Update w curtime frame
      = (true, a.RemoveAllEvents, w.UpdateTimestep a.m_gameobj curtime) := by
    simp [Update, IsNegativeEvent, hpos, RemoveAllEvents, GetParent, hrun]
  rw [hU]
  refine ⟨rfl, rfl, ?_, ?_, ?_, rfl⟩
  · simp [Scene.UpdateTimestep, SCA_IObject.UpdateTimestep]
  · intro o ho
    simp [Scene.UpdateTimestep, Function.update_noteq ho]
  · intro o
    by_cases ho : o = a.m_gameobj
    · subst ho
      simp [Scene.UpdateTimestep, SCA_IObject.UpdateTimestep]
    · simp [Scene.UpdateTimestep, Function.update_noteq ho]

/-- Witness of `update_run` on a Run unit at time 3. -/
theorem update_run_witness :
    ((sampleUnit ACT_ARM_RUN true).Update sampleScene 3 false).1 = true ∧
    (((sampleUnit ACT_ARM_RUN true).Update sampleScene 3 false).2.2.objs 5).m_timesteps
      = [3] :=
  ⟨(update_run (sampleUnit ACT_ARM_RUN true) sampleScene 3 false rfl rfl).1,
   (update_run (sampleUnit ACT_ARM_RUN true) sampleScene 3 false rfl rfl).2.2.1⟩

/-- C9: with any selector other than Run (one of the five other defined values or
any other integer) and a pending positive event, `Update` returns false and
leaves every scene object unchanged, so no timestep is invoked; and when the
constraint handle is unresolved the whole scene is unchanged and the unit only
has its queued events drained. -/
theorem update_non_run (a : SCA_ArmatureActuator) (w : Scene) (curtime : Rat) (frame : Bool)
    (hpos : a.m_posevent = true) (hrun : a.m_type ≠ ACT_ARM_RUN) :
    (a.Update w curtime frame).1 = false ∧
    (a.Update w curtime frame).2.2.objs = w.objs ∧
    (a.Update w curtime frame).2.1 = a.RemoveAllEvents ∧
    (a.m_constraint = NULL → (a.Update w curtime frame).2.2 = w) := by
  have hrun2 : a.RemoveAllEvents.m_type ≠ ACT_ARM_RUN := hrun
  unfold Update
  simp only [IsNegativeEvent, hpos, Bool.not_true, Bool.not_false, if_true, if_neg hrun2]
  refine ⟨?_, ?_, ?_, ?_⟩
  · split_ifs <;> rfl
  · split_ifs <;> rfl
  · split_ifs <;> rfl
  · intro hc
    have hc2 : a.RemoveAllEvents.m_constraint = NULL := hc
    simp [hc2]

/-- Witness of `update_non_run` on a unit whose selector 42 is none of the six
defined values. -/
theorem update_non_run_witness :
    ((sampleUnit 42 true).Update sampleScene 3 false).1 = false ∧
    ((sampleUnit 42 true).Update sampleScene 3 false).2.2.objs = sampleScene.objs :=
  ⟨(update_non_run (sampleUnit 42 true) sampleScene 3 false rfl (by decide)).1,
   (update_non_run (sampleUnit 42 true) sampleScene 3 false rfl (by decide)).2.1⟩

/-- C10: with a resolved handle, a Disable step sets the handle's disabled flag
whatever it was before, and a following Enable step (by any unit holding the
same handle) clears it; each step leaves the handle's target, subtarget, weight
and influence, every other constraint and every object unchanged, and repeating
either step gives the same scene as doing it once. -/
theorem update_disable_enable (a e : SCA_ArmatureActuator) (w : Scene) (t t2 : Rat)
    (frame frame2 : Bool)
    (hc : a.m_constraint ≠ NULL) (hd : a.m_type = ACT_ARM_DISABLE) (hp : a.m_posevent = true)
    (hce : e.m_constraint = a.m_constraint) (he : e.m_type = ACT_ARM_ENABLE)
    (hpe : e.m_posevent = true) :
    (a.Update w t frame).2.2.cons a.m_constraint
      = { w.cons a.m_constraint with disabled := true } ∧
    (e.Update (a.Update w t frame).2.2 t2 frame2).2.2.cons a.m_constraint
      = { w.cons a.m_constraint with disabled := false } ∧
    (∀ c, c ≠ a.m_constraint →
      (a.Update w t frame).2.2.cons c = w.cons c ∧
      (e.Update (a.Update w t frame).2.2 t2 frame2).2.2.cons c = w.cons c) ∧
    (a.Update w t frame).2.2.objs = w.objs ∧
    (e.Update (a.Update w t frame).2.2 t2 frame2).2.2.objs = w.objs ∧
    (a.Update (a.Update w t frame).2.2 t2 frame2).2.2 = (a.Update w t frame).2.2 ∧
    (e.Update (e.Update w t frame).2.2 t2 frame2).2.2 = (e.Update w t frame).2.2 := by
  have hA : ∀ (v : Scene) (s : Rat) (f : Bool), (a.Update v s f).2.2
      = v.onConstraint a.m_constraint BL_ArmatureConstraint.SetConstraintFlag_OFF := by
    intro v s f
    have h1 : a.RemoveAllEvents.m_type = ACT_ARM_DISABLE := hd
    have h2 : a.RemoveAllEvents.m_constraint ≠ NULL := hc
    have h3 : a.RemoveAllEvents.m_constraint = a.m_constraint := rfl
    unfold Update
    simp [IsNegativeEvent, hp, h1, h2, h3, hc, ACT_ARM_DISABLE, ACT_ARM_RUN, ACT_ARM_ENABLE]
  have hE : ∀ (v : Scene) (s : Rat) (f : Bool), (e.Update v s f).2.2
      = v.onConstraint a.m_constraint BL_ArmatureConstraint.ClrConstraintFlag_OFF := by
    intro v s f
    have h1 : e.RemoveAllEvents.m_type = ACT_ARM_ENABLE := he
    have h3 : e.RemoveAllEvents.m_constraint = a.m_constraint := hce
    have h2 : e.RemoveAllEvents.m_constraint ≠ NULL := by rw [h3]; exact hc
    unfold Update
    simp [IsNegativeEvent, hpe, h1, h2, h3, hc, ACT_ARM_RUN, ACT_ARM_ENABLE]
  simp only [hA, hE]
  refine ⟨?_, ?_, ?_, rfl, rfl, ?_, ?_⟩
  · simp [Scene.onConstraint, BL_ArmatureConstraint.SetConstraintFlag_OFF]
  · simp [Scene.onConstraint, BL_ArmatureConstraint.SetConstraintFlag_OFF,
      BL_ArmatureConstraint.ClrConstraintFlag_OFF]
  · intro c hne
    simp [Scene.onConstraint, Function.update_noteq hne]
  · simp [Scene.onConstraint, BL_ArmatureConstraint.SetConstraintFlag_OFF]
  · simp [Scene.onConstraint, BL_ArmatureConstraint.ClrConstraintFlag_OFF]

/-- Witness of `update_disable_enable`: unit Disable then unit Enable on the
constraint at address 7. -/
theorem update_disable_enable_witness :
    (((sampleUnit ACT_ARM_DISABLE true).Update sampleScene 0 true).2.2.cons 7).disabled = true ∧
    (((sampleUnit ACT_ARM_ENABLE true).Update
        ((sampleUnit ACT_ARM_DISABLE true).Update sampleScene 0 true).2.2 1 true).2.2.cons
          7).disabled = false := by
  have h := update_disable_enable (sampleUnit ACT_ARM_DISABLE true)
    (sampleUnit ACT_ARM_ENABLE true) sampleScene 0 1 true true (by decide) rfl rfl rfl rfl rfl
  exact ⟨by rw [show (7 : Ptr) = (sampleUnit ACT_ARM_DISABLE true).m_constraint from rfl, h.1],
    by rw [show (7 : Ptr) = (sampleUnit ACT_ARM_DISABLE true).m_constraint from rfl, h.2.1]⟩

theorem UnlinkObject_eq (a : SCA_ArmatureActuator) (D : Ptr) : a.UnlinkObject D =
    (decide (D = a.m_gametarget ∨ D = a.m_gamesubtarget),
     { a with
       m_gametarget := if D = a.m_gametarget then NULL else a.m_gametarget
       m_gamesubtarget := if D = a.m_gamesubtarget then NULL else a.m_gamesubtarget }) := by
  unfold UnlinkObject
  by_cases h1 : D = a.m_gametarget
  · by_cases h2 : D = a.m_gamesubtarget
    · simp only [if_pos h1, if_pos h2]
      exact Prod.ext (decide_eq_true (Or.inl h1)).symm rfl
    · simp only [if_pos h1, if_neg h2]
      exact Prod.ext (decide_eq_true (Or.inl h1)).symm rfl
  · by_cases h2 : D = a.m_gamesubtarget
    · simp only [if_neg h1, if_pos h2]
      exact Prod.ext (decide_eq_true (Or.inr h2)).symm rfl
    · simp only [if_neg h1, if_neg h2]
      exact Prod.ext (decide_eq_false (not_or.mpr ⟨h1, h2⟩)).symm rfl

/-- C4: `UnlinkObject(D)` returns true exactly when `D` equals the target or the
subtarget held before the call; afterwards every reference that equalled `D` is
null and every other field of the unit is unchanged. The call neither reads nor
writes the scene: as a lifecycle call it leaves every registration set, every
object and every constraint as they were. -/
theorem unlinkObject_contract (a : SCA_ArmatureActuator) (D : Ptr) :
    ((a.UnlinkObject D).1 = true ↔ (D = a.m_gametarget ∨ D = a.m_gamesubtarget)) ∧
    (a.UnlinkObject D).2 =
      { a with
        m_gametarget := if D = a.m_gametarget then NULL else a.m_gametarget
        m_gamesubtarget := if D = a.m_gamesubtarget then NULL else a.m_gamesubtarget } ∧
    (∀ (W : World) (self : Ptr), (W.call (Call.Unlink self D)).scene = W.scene) := by
  have key := UnlinkObject_eq a D
  refine ⟨?_, ?_, ?_⟩
  · rw [key]; simp
  · rw [key]
  · intro W self
    simp only [World.call]
    cases W.units self <;> rfl

/-- C3: the clone step at the input target = subtarget = object 1: the copy has
the same fields as the original, and the replica at address 11 is first
registered with object 1 (as target) and then unregistered from it (as
subtarget), so it ends up not registered with its own target. -/
theorem getReplica_aliased_target :
    (aliasedUnit.GetReplica 11 sampleScene).1 = aliasedUnit ∧
    (aliasedUnit.GetReplica 11 sampleScene).1.m_gametarget = 1 ∧
    ¬ (aliasedUnit.GetReplica 11 sampleScene).2.registered 1 11 := by
  refine ⟨rfl, rfl, ?_⟩
  decide

/-- C5 (as stated, refuted): the constructor stores a weight of 3/2 as it is: the
unit exists, and its weight is neither rejected nor brought back to 1. -/
theorem construct_weight_out_of_range :
    (constructed (3 / 2)).1.m_weight = 3 / 2 ∧ ¬ (constructed (3 / 2)).1.InRange := by
  have h : (constructed (3 / 2)).1.m_weight = 3 / 2 := rfl
  refine ⟨h, ?_⟩
  intro hr
  have h1 := hr.2.1
  rw [h] at h1
  norm_num at h1

/-- C5 (amended): the constructor stores the supplied weight and influence as
given, whatever their values (no range check, no clamping); the `weight` and
`influence` attribute setters accept a value exactly when it lies between 0 and
1, store it then, and otherwise fail leaving the unit unchanged. Hence a unit
constructed with weight and influence between 0 and 1 keeps both in that range
under any sequence of attribute assignments, and a unit constructed with a
weight or an influence outside that range is out of range. -/
theorem weight_influence_range (self : Ptr) (w : Scene) (obj : Ptr) (type : Int)
    (posechannel constraintname : String) (targetobj subtargetobj : Ptr)
    (weight influence : Rat) (sets : List Configure) :
    (Construct self w obj type posechannel constraintname targetobj subtargetobj
      weight influence).1.m_weight = weight ∧
    (Construct self w obj type posechannel constraintname targetobj subtargetobj
      weight influence).1.m_influence = influence ∧
    (∀ (a : SCA_ArmatureActuator) (v : Rat),
      ((a.pyattr_set_weight v).1 = PY_SET_ATTR_SUCCESS ↔ (0 ≤ v ∧ v ≤ 1)) ∧
      ((0 ≤ v ∧ v ≤ 1) → (a.pyattr_set_weight v).2 = { a with m_weight := v }) ∧
      (¬ (0 ≤ v ∧ v ≤ 1) → (a.pyattr_set_weight v) = (PY_SET_ATTR_FAIL, a)) ∧
      ((a.pyattr_set_influence v).1 = PY_SET_ATTR_SUCCESS ↔ (0 ≤ v ∧ v ≤ 1)) ∧
      ((0 ≤ v ∧ v ≤ 1) → (a.pyattr_set_influence v).2 = { a with m_influence := v }) ∧
      (¬ (0 ≤ v ∧ v ≤ 1) → (a.pyattr_set_influence v) = (PY_SET_ATTR_FAIL, a))) ∧
    ((0 ≤ weight ∧ weight ≤ 1) → (0 ≤ influence ∧ influence ≤ 1) →
      (sets.foldl SCA_ArmatureActuator.configure
        (Construct self w obj type posechannel constraintname targetobj subtargetobj
          weight influence).1).InRange) ∧
    ((Construct self w obj type posechannel constraintname targetobj subtargetobj
        weight influence).1.InRange ↔
      ((0 ≤ weight ∧ weight ≤ 1) ∧ (0 ≤ influence ∧ influence ≤ 1))) := by
  have hcw : (Construct self w obj type posechannel constraintname targetobj subtargetobj
      weight influence).1.m_weight = weight := by
    simp only [Construct, FindConstraint]; split_ifs <;> rfl
  have hci : (Construct self w obj type posechannel constraintname targetobj subtargetobj
      weight influence).1.m_influence = influence := by
    simp only [Construct, FindConstraint]; split_ifs <;> rfl
  have hset : ∀ (a : SCA_ArmatureActuator) (v : Rat),
      ((a.pyattr_set_weight v).1 = PY_SET_ATTR_SUCCESS ↔ (0 ≤ v ∧ v ≤ 1)) ∧
      ((0 ≤ v ∧ v ≤ 1) → (a.pyattr_set_weight v).2 = { a with m_weight := v }) ∧
      (¬ (0 ≤ v ∧ v ≤ 1) → (a.pyattr_set_weight v) = (PY_SET_ATTR_FAIL, a)) ∧
      ((a.pyattr_set_influence v).1 = PY_SET_ATTR_SUCCESS ↔ (0 ≤ v ∧ v ≤ 1)) ∧
      ((0 ≤ v ∧ v ≤ 1) → (a.pyattr_set_influence v).2 = { a with m_influence := v }) ∧
      (¬ (0 ≤ v ∧ v ≤ 1) → (a.pyattr_set_influence v) = (PY_SET_ATTR_FAIL, a)) := by
    intro a v
    by_cases hv : 0 ≤ v ∧ v ≤ 1
    · simp [pyattr_set_weight, pyattr_set_influence, KX_PYATTRIBUTE_FLOAT_RW, hv]
    · simp [pyattr_set_weight, pyattr_set_influence, KX_PYATTRIBUTE_FLOAT_RW, hv,
        PY_SET_ATTR_FAIL, PY_SET_ATTR_SUCCESS]
  have hstep : ∀ (a : SCA_ArmatureActuator) (c : Configure), a.InRange → (a.configure c).InRange := by
    intro a c ha
    cases c with
    | weight v =>
      by_cases hv : 0 ≤ v ∧ v ≤ 1
      · simp only [SCA_ArmatureActuator.configure, (hset a v).2.1 hv]
        exact ⟨hv.1, hv.2, ha.2.2.1, ha.2.2.2⟩
      · simp only [SCA_ArmatureActuator.configure, (hset a v).2.2.1 hv]
        exact ha
    | influence v =>
      by_cases hv : 0 ≤ v ∧ v ≤ 1
      · simp only [SCA_ArmatureActuator.configure, (hset a v).2.2.2.2.1 hv]
        exact ⟨ha.1, ha.2.1, hv.1, hv.2⟩
      · simp only [SCA_ArmatureActuator.configure, (hset a v).2.2.2.2.2 hv]
        exact ha
  have hfold : ∀ (l : List Configure) (a : SCA_ArmatureActuator), a.InRange →
      (l.foldl SCA_ArmatureActuator.configure a).InRange := by
    intro l
    induction l with
    | nil => intro a ha; exact ha
    | cons c cs ih => intro a ha; exact ih _ (hstep a c ha)
  have hiff : (Construct self w obj type posechannel constraintname targetobj subtargetobj
      weight influence).1.InRange ↔
      ((0 ≤ weight ∧ weight ≤ 1) ∧ (0 ≤ influence ∧ influence ≤ 1)) := by
    unfold SCA_ArmatureActuator.InRange
    rw [hcw, hci]
    constructor
    · rintro ⟨h1, h2, h3, h4⟩
      exact ⟨⟨h1, h2⟩, ⟨h3, h4⟩⟩
    · rintro ⟨⟨h1, h2⟩, ⟨h3, h4⟩⟩
      exact ⟨h1, h2, h3, h4⟩
  exact ⟨hcw, hci, hset, fun hw hi => hfold sets _ (hiff.mpr ⟨hw, hi⟩), hiff⟩

/-- Witness of `weight_influence_range`: construction with weight 3/4 and
influence 1/2, then an accepted and a rejected assignment to `weight`. -/
theorem weight_influence_range_witness :
    ([Configure.weight (1 / 4), Configure.weight (3 / 2)].foldl SCA_ArmatureActuator.configure
      (Construct 10 sampleScene 5 ACT_ARM_SETWEIGHT "Bone" "IK" 1 2 (3 / 4) (1 / 2)).1).InRange :=
  (weight_influence_range 10 sampleScene 5 ACT_ARM_SETWEIGHT "Bone" "IK" 1 2 (3 / 4) (1 / 2)
    [Configure.weight (1 / 4), Configure.weight (3 / 2)]).2.2.2.1 (by norm_num) (by norm_num)

/-- C6: the target setter at a unit constructed with target 1, given the proxy of
object 3: the call succeeds, the registration moves from object 1 to object 3,
but the unit's target field still holds object 1 and the target getter still
returns the proxy of object 1. -/
theorem pyattr_set_object_keeps_field :
    (pyattr_set_object 10 (constructed 1).1 (constructed 1).2 "target"
      (PyObject.GameObjectProxy 3)).1 = PY_SET_ATTR_SUCCESS ∧
    (pyattr_set_object 10 (constructed 1).1 (constructed 1).2 "target"
      (PyObject.GameObjectProxy 3)).2.1.m_gametarget = 1 ∧
    (pyattr_set_object 10 (constructed 1).1 (constructed 1).2 "target"
      (PyObject.GameObjectProxy 3)).2.1.pyattr_get_object "target" = PyObject.GameObjectProxy 1 ∧
    (pyattr_set_object 10 (constructed 1).1 (constructed 1).2 "target"
      (PyObject.GameObjectProxy 3)).2.2.registered 3 10 ∧
    ¬ (pyattr_set_object 10 (constructed 1).1 (constructed 1).2 "target"
      (PyObject.GameObjectProxy 3)).2.2.registered 1 10 := by
  refine ⟨rfl, rfl, rfl, ?_, ?_⟩ <;> decide

/-! ### Registration bookkeeping -/

theorem registered_RegisterActuator (w : Scene) (obj act O v : Ptr) :
    (w.RegisterActuator obj act).registered O v ↔ (O = obj ∧ v = act) ∨ w.registered O v := by
  unfold Scene.registered Scene.RegisterActuator SCA_IObject.RegisterActuator
  by_cases hO : O = obj
  · subst hO
    by_cases hm : act ∈ (w.objs O).m_registeredActuators
    · by_cases hv : v = act
      · subst hv; simp [hm]
      · simp [hm, hv]
    · simp [hm, or_comm]
  · simp [Function.update_noteq hO, hO]

theorem registered_UnregisterActuator (w : Scene) (obj act O v : Ptr) :
    (w.UnregisterActuator obj act).registered O v ↔ w.registered O v ∧ ¬ (O = obj ∧ v = act) := by
  unfold Scene.registered Scene.UnregisterActuator SCA_IObject.UnregisterActuator
  by_cases hO : O = obj
  · subst hO
    simp [List.mem_filter]
  · simp [Function.update_noteq hO, hO]

theorem ObjMap.find_index (m : ObjMap) (k k2 : Ptr) : (m.index k).2.find k2 = m.find k2 := by
  unfold ObjMap.find ObjMap.index
  cases hk : m k with
  | some v => simp
  | none =>
    by_cases h : k2 = k
    · subst h; simp [hk, Function.update_same]
    · simp only [Function.update_noteq h]
      cases m k2 <;> rfl

theorem registered_retarget (w : Scene) (self old new O v : Ptr) :
    (w.retarget self old new).registered O v ↔
      if new ≠ NULL then
        (O = new ∧ v = self) ∨ (w.registered O v ∧ ¬ (old ≠ NULL ∧ O = old ∧ v = self))
      else w.registered O v := by
  unfold Scene.retarget
  by_cases hn : new = NULL
  · simp [hn]
  · by_cases ho : old = NULL
    · simp [hn, ho, registered_RegisterActuator]
    · simp [hn, ho, registered_RegisterActuator, registered_UnregisterActuator]

theorem Relink_eq (self : Ptr) (a : SCA_ArmatureActuator) (w : Scene) (m : ObjMap) :
    a.Relink self w m =
      ({ a with
          m_gametarget :=
            if m.find a.m_gametarget ≠ NULL then m.find a.m_gametarget else a.m_gametarget
          m_gamesubtarget :=
            if m.find a.m_gamesubtarget ≠ NULL then m.find a.m_gamesubtarget
            else a.m_gamesubtarget },
       (w.retarget self a.m_gametarget (m.find a.m_gametarget)).retarget self
          a.m_gamesubtarget (m.find a.m_gamesubtarget),
       ((m.index a.m_gametarget).2.index a.m_gamesubtarget).2) := by
  have hf := ObjMap.find_index m a.m_gametarget a.m_gamesubtarget
  unfold ObjMap.find at hf
  unfold Relink Scene.retarget ObjMap.find
  by_cases h1 : (m.index a.m_gametarget).1 = NULL
  · by_cases h2 : (m.index a.m_gamesubtarget).1 = NULL
    · simp [h1, h2, hf]
    · simp [h1, h2, hf]
  · by_cases h2 : (m.index a.m_gamesubtarget).1 = NULL
    · simp [h1, h2, hf]
    · simp [h1, h2, hf]

theorem ObjMap.find_single (old new k : Ptr) :
    (ObjMap.single old new).find k = if k = old then new else NULL := by
  unfold ObjMap.find ObjMap.index ObjMap.single
  by_cases h : k = old <;> simp [h]

/-- C2 (amended): `Relink` handles the target first and the subtarget second.
Writing `ht`, `hs` for the objects the map holds for the current target and
subtarget (null for a missing key and for a key mapped to null): a field with a
non-null image becomes that image, a field without one keeps its value, and no
other field changes. The unit ends registered with the new subtarget; with the
new target unless the subtarget step has unregistered it (new target = old
subtarget, different from the new subtarget); it ends unregistered from a
non-null old reference that is not one of its new references. A field without a
non-null image causes no registration call; other units, and the constraints,
are untouched. In particular with the map that sends only `O` to `O2` (both
non-null, different) and target `O`, the unit ends with target `O2`, registered
with `O2` and not with `O`. -/
theorem relink_postcondition (self : Ptr) (a : SCA_ArmatureActuator) (w : Scene) (m : ObjMap)
    (ht hs : Ptr) (hht : m.find a.m_gametarget = ht) (hhs : m.find a.m_gamesubtarget = hs) :
    (a.Relink self w m).1 =
      { a with
        m_gametarget := if ht ≠ NULL then ht else a.m_gametarget
        m_gamesubtarget := if hs ≠ NULL then hs else a.m_gamesubtarget } ∧
    (hs ≠ NULL → (a.Relink self w m).2.1.registered hs self) ∧
    (ht ≠ NULL → (hs = NULL ∨ a.m_gamesubtarget ≠ ht ∨ hs = ht) →
      (a.Relink self w m).2.1.registered ht self) ∧
    (ht ≠ NULL → a.m_gametarget ≠ NULL → a.m_gametarget ≠ ht → a.m_gametarget ≠ hs →
      ¬ (a.Relink self w m).2.1.registered a.m_gametarget self) ∧
    (hs ≠ NULL → a.m_gamesubtarget ≠ NULL → a.m_gamesubtarget ≠ hs →
      ¬ (a.Relink self w m).2.1.registered a.m_gamesubtarget self) ∧
    (ht = NULL → ∀ O, O ≠ a.m_gamesubtarget → O ≠ hs →
      ((a.Relink self w m).2.1.registered O self ↔ w.registered O self)) ∧
    (hs = NULL → ∀ O, O ≠ a.m_gametarget → O ≠ ht →
      ((a.Relink self w m).2.1.registered O self ↔ w.registered O self)) ∧
    (ht = NULL → hs = NULL → (a.Relink self w m).2.1 = w) ∧
    (∀ O v, v ≠ self → ((a.Relink self w m).2.1.registered O v ↔ w.registered O v)) ∧
    (a.Relink self w m).2.1.cons = w.cons ∧
    (∀ O O2, O ≠ NULL → O2 ≠ NULL → O2 ≠ O → a.m_gametarget = O → m = ObjMap.single O O2 →
      (a.Relink self w m).1.m_gametarget = O2 ∧
      (a.Relink self w m).2.1.registered O2 self ∧
      ¬ (a.Relink self w m).2.1.registered O self) := by
  subst hht hhs
  rw [Relink_eq]
  simp only [registered_retarget]
  refine ⟨trivial, ?_, ?_, ?_, ?_, ?_, ?_, ?_, ?_, ?_, ?_⟩
  · intro h; simp [h]
  · intro h1 h2
    by_cases h3 : m.find a.m_gamesubtarget = NULL
    · simp [h1, h3]
    · by_cases h4 : m.find a.m_gametarget = m.find a.m_gamesubtarget
      · simp [h3, h4]
      · have h5 : a.m_gamesubtarget ≠ m.find a.m_gametarget := by
          rcases h2 with h2 | h2 | h2
          · exact absurd h2 h3
          · exact h2
          · exact absurd h2.symm h4
        simp [h1, h3, h4, Ne.symm h5]
  · intro h1 h2 h3 h4
    by_cases h5 : m.find a.m_gamesubtarget = NULL
    · simp [h1, h2, h3, h5]
    · simp [h1, h2, h3, h4, h5]
  · intro h1 h2 h3
    simp [h1, h2, h3]
  · intro h1 O h2 h3
    by_cases h5 : m.find a.m_gamesubtarget = NULL
    · simp [h1, h5]
    · simp [h1, h2, h3, h5]
  · intro h1 O h2 h3
    by_cases h5 : m.find a.m_gametarget = NULL
    · simp [h1, h5]
    · simp [h1, h2, h3, h5]
  · intro h1 h2
    simp [Scene.retarget, h1, h2]
  · intro O v hv
    by_cases h1 : m.find a.m_gametarget = NULL <;>
      by_cases h2 : m.find a.m_gamesubtarget = NULL <;> simp [h1, h2, hv]
  · unfold Scene.retarget Scene.RegisterActuator Scene.UnregisterActuator
    split_ifs <;> rfl
  · intro O O2 hO hO2 hne ht hm
    subst hm
    simp only [ObjMap.find_single, ht, if_true]
    by_cases hs : a.m_gamesubtarget = O
    · simp [hs, hO, hO2, hne, Ne.symm hne]
    · simp [hs, hO, hO2, hne, Ne.symm hne]

/-- Witness of `relink_postcondition`: the unit built with target 1 and
subtarget 2, remapped with the map that sends only 1 to 3. -/
theorem relink_postcondition_witness :
    ((constructed 1).1.Relink 10 (constructed 1).2 (ObjMap.single 1 3)).1.m_gametarget = 3 ∧
    ((constructed 1).1.Relink 10 (constructed 1).2 (ObjMap.single 1 3)).2.1.registered 3 10 ∧
    ¬ ((constructed 1).1.Relink 10 (constructed 1).2 (ObjMap.single 1 3)).2.1.registered 1 10 :=
  (relink_postcondition 10 (constructed 1).1 (constructed 1).2 (ObjMap.single 1 3) 3 NULL
    rfl rfl).2.2.2.2.2.2.2.2.2.2 1 3 (by decide) (by decide) (by decide) rfl rfl

/-- C2 (as stated, refuted): two inputs for the unit at address 10 with target 1
and subtarget 2, registered with both. With the map that holds key 1 mapped to
null, the target is a key of the map but the field keeps the value 1 instead of
the mapped (null) object. With the map 1 to 2, 2 to 3 both fields are keys: the
target becomes 2 and the subtarget 3, but the unit is not registered with its new
target 2, because the subtarget step unregistered it from its old subtarget 2. -/
theorem relink_counterexample :
    (ObjMap.single 1 NULL 1 = some NULL ∧
      ((constructed 1).1.Relink 10 (constructed 1).2 (ObjMap.single 1 NULL)).1.m_gametarget
        = 1) ∧
    (chainMap 1 = some 2 ∧ chainMap 2 = some 3 ∧
      ((constructed 1).1.Relink 10 (constructed 1).2 chainMap).1.m_gametarget = 2 ∧
      ((constructed 1).1.Relink 10 (constructed 1).2 chainMap).1.m_gamesubtarget = 3 ∧
      ¬ ((constructed 1).1.Relink 10 (constructed 1).2 chainMap).2.1.registered 2 10) := by
  refine ⟨⟨rfl, rfl⟩, rfl, rfl, rfl, rfl, ?_⟩
  decide

theorem Construct_fields (self : Ptr) (w : Scene) (obj : Ptr) (type : Int)
    (posechannel constraintname : String) (targetobj subtargetobj : Ptr)
    (weight influence : Rat) :
    (Construct self w obj type posechannel constraintname targetobj subtargetobj
      weight influence).1.m_gametarget = targetobj ∧
    (Construct self w obj type posechannel constraintname targetobj subtargetobj
      weight influence).1.m_gamesubtarget = subtargetobj := by
  constructor <;> (simp only [Construct, FindConstraint]; split_ifs <;> rfl)

theorem Construct_registered (self : Ptr) (w : Scene) (obj : Ptr) (type : Int)
    (posechannel constraintname : String) (targetobj subtargetobj : Ptr)
    (weight influence : Rat) (O v : Ptr) :
    (Construct self w obj type posechannel constraintname targetobj subtargetobj
      weight influence).2.registered O v ↔
      (O = subtargetobj ∧ subtargetobj ≠ NULL ∧ v = self) ∨
      (O = targetobj ∧ targetobj ≠ NULL ∧ v = self) ∨ w.registered O v := by
  simp only [Construct]
  by_cases h1 : targetobj = NULL <;> by_cases h2 : subtargetobj = NULL <;>
    simp [h1, h2, registered_RegisterActuator]

theorem retarget_twice_iff (R : Prop) (O t s ht hs : Nat) (hO : O ≠ NULL)
    (hfun : t = s → ht = hs)
    (hg : hs ≠ NULL → ht ≠ NULL → ht = s → hs = ht)
    (hpre : R ↔ (t = O ∨ s = O)) :
    (if hs ≠ NULL then
        O = hs ∨ ((if ht ≠ NULL then O = ht ∨ (R ∧ ¬ (t ≠ NULL ∧ O = t)) else R) ∧
          ¬ (s ≠ NULL ∧ O = s))
      else (if ht ≠ NULL then O = ht ∨ (R ∧ ¬ (t ≠ NULL ∧ O = t)) else R)) ↔
      ((if ht ≠ NULL then ht else t) = O ∨ (if hs ≠ NULL then hs else s) = O) := by
  rw [hpre]
  unfold NULL at *
  split_ifs <;> omega

theorem retarget_twice_of (R : Prop) (O t s ht hs : Nat)
    (hfun : t = s → ht = hs)
    (hg : hs ≠ NULL → ht ≠ NULL → ht = s → hs = ht)
    (hpre : (t = O ∨ s = O) → R)
    (hpost : (if ht ≠ NULL then ht else t) = O ∨ (if hs ≠ NULL then hs else s) = O) :
    (if hs ≠ NULL then
        O = hs ∨ ((if ht ≠ NULL then O = ht ∨ (R ∧ ¬ (t ≠ NULL ∧ O = t)) else R) ∧
          ¬ (s ≠ NULL ∧ O = s))
      else (if ht ≠ NULL then O = ht ∨ (R ∧ ¬ (t ≠ NULL ∧ O = t)) else R)) := by
  by_cases hR : R
  · unfold NULL at *
    split_ifs at hpost ⊢ <;> simp only [hR, true_and] <;> omega
  · have hn : ¬ (t = O ∨ s = O) := fun h => hR (hpre h)
    unfold NULL at *
    split_ifs at hpost ⊢ <;> simp only [hR, false_and, or_false] <;> omega

theorem unlink_fields (a : SCA_ArmatureActuator) (D : Ptr) :
    (a.UnlinkObject D).2.m_gametarget = (if D = a.m_gametarget then NULL else a.m_gametarget) ∧
    (a.UnlinkObject D).2.m_gamesubtarget
      = (if D = a.m_gamesubtarget then NULL else a.m_gamesubtarget) := by
  rw [UnlinkObject_eq]
  exact ⟨rfl, rfl⟩

theorem call_keeps_invariant (W : World) (c : Call) (hI : W.RegistrationInvariant)
    (hc : c.Admissible false W) : (W.call c).RegistrationInvariant := by
  cases c with
  | Construct self obj type posechannel constraintname targetobj subtargetobj weight influence =>
    simp only [World.call]
    cases hu : W.units self with
    | some b => exact hI
    | none =>
      intro O u hO
      have hf := Construct_fields self W.scene obj type posechannel constraintname targetobj
        subtargetobj weight influence
      simp only [Construct_registered]
      by_cases hus : u = self
      · subst hus
        have hpre := hI O u hO
        rw [hu] at hpre
        simp at hpre
        simp only [Function.update_same, Option.some.injEq, exists_eq_left', hf.1, hf.2, hpre,
          or_false, and_true]
        unfold NULL at *
        constructor
        · rintro (⟨h1, _⟩ | ⟨h1, _⟩)
          · exact Or.inr h1.symm
          · exact Or.inl h1.symm
        · rintro (h1 | h1)
          · exact Or.inr ⟨h1.symm, by rw [h1]; exact hO⟩
          · exact Or.inl ⟨h1.symm, by rw [h1]; exact hO⟩
      · simp only [Function.update_noteq hus, hus, and_false, false_or]
        exact hI O u hO
  | Clone self replica => exact absurd hc id
  | Unlink self clientobj => exact absurd hc (by simp [Call.Admissible])
  | Remap self m =>
    simp only [World.call]
    cases hu : W.units self with
    | none => exact hI
    | some a =>
      intro O u hO
      simp only [Relink_eq, registered_retarget]
      by_cases hus : u = self
      · subst hus
        have hpre := hI O u hO
        rw [hu] at hpre
        simp only [Option.some.injEq, exists_eq_left'] at hpre
        simp only [Function.update_same, Option.some.injEq, exists_eq_left', and_true]
        exact retarget_twice_iff _ O a.m_gametarget a.m_gamesubtarget _ _ hO
          (fun h => by rw [h]) (hc a hu) hpre
      · simp only [Function.update_noteq hus, hus, and_false, false_or, not_false_eq_true,
          and_true, ite_self]
        exact hI O u hO

theorem call_keeps_tracked (W : World) (c : Call) (hT : W.Tracked)
    (hc : c.Admissible true W) : (W.call c).Tracked := by
  cases c with
  | Construct self obj type posechannel constraintname targetobj subtargetobj weight influence =>
    simp only [World.call]
    cases hu : W.units self with
    | some b => exact hT
    | none =>
      intro O u b hO hb href
      have hf := Construct_fields self W.scene obj type posechannel constraintname targetobj
        subtargetobj weight influence
      simp only [Construct_registered]
      by_cases hus : u = self
      · subst hus
        simp only [Function.update_same, Option.some.injEq] at hb
        subst hb
        rw [hf.1, hf.2] at href
        rcases href with h1 | h1
        · exact Or.inr (Or.inl ⟨h1.symm, by rw [h1]; exact hO, rfl⟩)
        · exact Or.inl ⟨h1.symm, by rw [h1]; exact hO, rfl⟩
      · simp only [Function.update_noteq hus] at hb
        exact Or.inr (Or.inr (hT O u b hO hb href))
  | Clone self replica => exact absurd hc id
  | Unlink self clientobj =>
    simp only [World.call]
    cases hu : W.units self with
    | none => exact hT
    | some a =>
      intro O u b hO hb href
      by_cases hus : u = self
      · subst hus
        simp only [Function.update_same, Option.some.injEq] at hb
        subst hb
        have hk := (unlink_fields a clientobj)
        rw [hk.1, hk.2] at href
        refine hT O u a hO hu ?_
        rcases href with h1 | h1
        · left
          by_cases h : clientobj = a.m_gametarget
          · rw [if_pos h] at h1; exact absurd h1.symm hO
          · rw [if_neg h] at h1; exact h1
        · right
          by_cases h : clientobj = a.m_gamesubtarget
          · rw [if_pos h] at h1; exact absurd h1.symm hO
          · rw [if_neg h] at h1; exact h1
      · simp only [Function.update_noteq hus] at hb
        exact hT O u b hO hb href
  | Remap self m =>
    simp only [World.call]
    cases hu : W.units self with
    | none => exact hT
    | some a =>
      intro O u b hO hb href
      simp only [Relink_eq, registered_retarget]
      by_cases hus : u = self
      · subst hus
        simp only [Function.update_same, Option.some.injEq] at hb
        subst hb
        simp only [and_true]
        exact retarget_twice_of _ O a.m_gametarget a.m_gamesubtarget _ _
          (fun h => by rw [h]) (hc a hu) (fun h => hT O u a hO hu h)
          (by simpa only [Relink_eq] using href)
      · simp only [Function.update_noteq hus] at hb
        simp only [hus, and_false, false_or, not_false_eq_true, and_true, ite_self]
        exact hT O u b hO hb href

theorem run_keeps_invariant (calls : List Call) :
    ∀ W : World, W.RegistrationInvariant → World.Admissible false W calls →
      (W.run calls).RegistrationInvariant := by
  induction calls with
  | nil => intro W hI _; exact hI
  | cons c cs ih =>
    intro W hI hA
    exact ih (W.call c) (call_keeps_invariant W c hI hA.1) hA.2

theorem run_keeps_tracked (calls : List Call) :
    ∀ W : World, W.Tracked → World.Admissible true W calls → (W.run calls).Tracked := by
  induction calls with
  | nil => intro W hT _; exact hT
  | cons c cs ih =>
    intro W hT hA
    exact ih (W.call c) (call_keeps_tracked W c hT hA.1) hA.2

theorem initial_invariant (W : World) (h : W.Initial) : W.RegistrationInvariant := by
  intro O u _
  simp [Scene.registered, h.1 u, h.2 O]

theorem initial_tracked (W : World) (h : W.Initial) : W.Tracked := by
  intro O u a _ hu
  rw [h.1 u] at hu
  cases hu

/-- C1 (as stated, refuted): three call sequences from the empty `sampleWorld`,
each starting with the construction of unit 10 (target 1, subtarget 2).
After `Clone` the replica 11 has subtarget 2 but is not registered with object 2.
After `Unlink(1)` unit 10 no longer refers to object 1 but is still registered
with it. After `Remap` with the map 1 to 2, 2 to 3, unit 10 has target 2 but is
not registered with object 2. In each state the registration invariant fails. -/
theorem registration_invariant_counterexample :
    ¬ (sampleWorld.run [sampleConstruct, Call.Clone 10 11]).RegistrationInvariant ∧
    ¬ (sampleWorld.run [sampleConstruct, Call.Unlink 10 1]).RegistrationInvariant ∧
    ¬ (sampleWorld.run [sampleConstruct, Call.Remap 10 chainMap]).RegistrationInvariant := by
  refine ⟨?_, ?_, ?_⟩
  · intro h
    have h1 : (sampleWorld.run [sampleConstruct, Call.Clone 10 11]).scene.registered 2 11 :=
      (h 2 11 (by decide)).mpr ⟨_, rfl, Or.inr rfl⟩
    revert h1
    decide
  · intro h
    have h1 : (sampleWorld.run [sampleConstruct, Call.Unlink 10 1]).scene.registered 1 10 := by
      decide
    obtain ⟨a, ha, hor⟩ := (h 1 10 (by decide)).mp h1
    cases Option.some.inj ha
    revert hor
    decide
  · intro h
    have h1 : (sampleWorld.run [sampleConstruct, Call.Remap 10 chainMap]).scene.registered 2 10 :=
      (h 2 10 (by decide)).mpr ⟨_, rfl, Or.inl rfl⟩
    revert h1
    decide

/-! ### Pushing values into the constraint -/

/-- C11: with a resolved handle and a pending positive event, a SetWeight step
returns false and leaves the handle's weight equal to the unit's stored weight,
a SetInfluence step returns false and leaves the handle's influence equal to the
unit's stored influence; every other field of the handle, every other
constraint and every object are unchanged. -/
theorem update_setweight_setinfluence (a : SCA_ArmatureActuator) (w : Scene) (curtime : Rat)
    (frame : Bool) (hc : a.m_constraint ≠ NULL) (hp : a.m_posevent = true) :
    (a.m_type = ACT_ARM_SETWEIGHT →
      (a.Update w curtime frame).1 = false ∧
      (a.Update w curtime frame).2.2.cons a.m_constraint
        = { w.cons a.m_constraint with weight := a.m_weight } ∧
      (∀ c, c ≠ a.m_constraint → (a.Update w curtime frame).2.2.cons c = w.cons c) ∧
      (a.Update w curtime frame).2.2.objs = w.objs) ∧
    (a.m_type = ACT_ARM_SETINFLUENCE →
      (a.Update w curtime frame).1 = false ∧
      (a.Update w curtime frame).2.2.cons a.m_constraint
        = { w.cons a.m_constraint with influence := a.m_influence } ∧
      (∀ c, c ≠ a.m_constraint → (a.Update w curtime frame).2.2.cons c = w.cons c) ∧
      (a.Update w curtime frame).2.2.objs = w.objs) := by
  have h2 : a.RemoveAllEvents.m_constraint ≠ NULL := hc
  have h3 : a.RemoveAllEvents.m_constraint = a.m_constraint := rfl
  have h4 : a.RemoveAllEvents.m_weight = a.m_weight := rfl
  have h5 : a.RemoveAllEvents.m_influence = a.m_influence := rfl
  constructor
  · intro ht
    have h1 : a.RemoveAllEvents.m_type = ACT_ARM_SETWEIGHT := ht
    have hU : a.Update w curtime frame = (false, a.RemoveAllEvents,
        w.onConstraint a.m_constraint (fun c => c.SetWeight a.m_weight)) := by
      unfold Update
      simp [IsNegativeEvent, hp, h1, h2, h3, h4, hc, ACT_ARM_SETWEIGHT, ACT_ARM_RUN,
        ACT_ARM_ENABLE, ACT_ARM_DISABLE, ACT_ARM_SETTARGET]
    rw [hU]
    refine ⟨rfl, ?_, ?_, rfl⟩
    · simp [Scene.onConstraint, BL_ArmatureConstraint.SetWeight]
    · intro c hne
      simp [Scene.onConstraint, Function.update_noteq hne]
  · intro ht
    have h1 : a.RemoveAllEvents.m_type = ACT_ARM_SETINFLUENCE := ht
    have hU : a.Update w curtime frame = (false, a.RemoveAllEvents,
        w.onConstraint a.m_constraint (fun c => c.SetInfluence a.m_influence)) := by
      unfold Update
      simp [IsNegativeEvent, hp, h1, h2, h3, h5, hc, ACT_ARM_SETINFLUENCE, ACT_ARM_SETWEIGHT,
        ACT_ARM_RUN, ACT_ARM_ENABLE, ACT_ARM_DISABLE, ACT_ARM_SETTARGET]
    rw [hU]
    refine ⟨rfl, ?_, ?_, rfl⟩
    · simp [Scene.onConstraint, BL_ArmatureConstraint.SetInfluence]
    · intro c hne
      simp [Scene.onConstraint, Function.update_noteq hne]

/-- Witness of `update_setweight_setinfluence`: the SetWeight unit with stored
weight 3/4 and the resolved handle 7, stepped at time 0. -/
theorem update_setweight_setinfluence_witness :
    ((sampleUnit ACT_ARM_SETWEIGHT true).Update sampleScene 0 true).1 = false ∧
    (((sampleUnit ACT_ARM_SETWEIGHT true).Update sampleScene 0 true).2.2.cons 7).weight
      = 3 / 4 := by
  have h := (update_setweight_setinfluence (sampleUnit ACT_ARM_SETWEIGHT true) sampleScene 0
    true (by decide) rfl).1 rfl
  exact ⟨h.1,
    by rw [show (7 : Ptr) = (sampleUnit ACT_ARM_SETWEIGHT true).m_constraint from rfl, h.2.1]; rfl⟩

/-- C12: for a SetTarget unit with a resolved handle whose target is `O`,
`UnlinkObject(O)` returns true and leaves the target null; a following step with
a pending positive event returns a result (false), and leaves the handle's
target null and the handle's subtarget equal to the unit's subtarget after the
unlink; the handle's flag, weight and influence, the other constraints and the
objects are unchanged. -/
theorem unlink_then_settarget (a : SCA_ArmatureActuator) (w : Scene) (curtime : Rat)
    (frame : Bool) (O : Ptr) (hty : a.m_type = ACT_ARM_SETTARGET) (hc : a.m_constraint ≠ NULL)
    (hp : a.m_posevent = true) (ht : a.m_gametarget = O) :
    (a.UnlinkObject O).1 = true ∧
    (a.UnlinkObject O).2.m_gametarget = NULL ∧
    ((a.UnlinkObject O).2.Update w curtime frame).1 = false ∧
    ((a.UnlinkObject O).2.Update w curtime frame).2.2.cons a.m_constraint
      = { w.cons a.m_constraint with
          target := NULL
          subtarget := (a.UnlinkObject O).2.m_gamesubtarget } ∧
    (∀ c, c ≠ a.m_constraint →
      ((a.UnlinkObject O).2.Update w curtime frame).2.2.cons c = w.cons c) ∧
    ((a.UnlinkObject O).2.Update w curtime frame).2.2.objs = w.objs := by
  subst ht
  rw [UnlinkObject_eq]
  simp only [true_or, decide_True, if_true]
  refine ⟨trivial, trivial, ?_⟩
  generalize hs : (if a.m_gametarget = a.m_gamesubtarget then NULL else a.m_gamesubtarget) = s
  have hU : ({ a with m_gametarget := NULL, m_gamesubtarget := s } :
      SCA_ArmatureActuator).Update w curtime frame
      = (false, ({ a with m_gametarget := NULL, m_gamesubtarget := s } :
          SCA_ArmatureActuator).RemoveAllEvents,
        (w.onConstraint a.m_constraint (fun c => c.SetTarget NULL)).onConstraint
          a.m_constraint (fun c => c.SetSubtarget s)) := by
    unfold Update
    simp [IsNegativeEvent, RemoveAllEvents, hp, hty, hc, ACT_ARM_RUN, ACT_ARM_ENABLE,
      ACT_ARM_DISABLE, ACT_ARM_SETTARGET]
  rw [hU]
  refine ⟨rfl, ?_, ?_, rfl⟩
  · simp [Scene.onConstraint, BL_ArmatureConstraint.SetTarget,
      BL_ArmatureConstraint.SetSubtarget]
  · intro c hne
    simp [Scene.onConstraint, Function.update_noteq hne]

/-- Witness of `unlink_then_settarget`: the SetTarget unit with target 1 and
subtarget 2, unlinked from object 1 and stepped. -/
theorem unlink_then_settarget_witness :
    ((sampleUnit ACT_ARM_SETTARGET true).UnlinkObject 1).1 = true ∧
    ((sampleUnit ACT_ARM_SETTARGET true).UnlinkObject 1).2.m_gametarget = NULL ∧
    (((sampleUnit ACT_ARM_SETTARGET true).UnlinkObject 1).2.Update sampleScene 0 true).1
      = false :=
  ⟨(unlink_then_settarget (sampleUnit ACT_ARM_SETTARGET true) sampleScene 0 true 1
      rfl (by decide) rfl rfl).1,
   (unlink_then_settarget (sampleUnit ACT_ARM_SETTARGET true) sampleScene 0 true 1
      rfl (by decide) rfl rfl).2.1,
   (unlink_then_settarget (sampleUnit ACT_ARM_SETTARGET true) sampleScene 0 true 1
      rfl (by decide) rfl rfl).2.2.1⟩

/-! ### Resolving the constraint handle -/

theorem FindConstraint_eq (a : SCA_ArmatureActuator) (w : Scene) :
    a.FindConstraint w =
      { a with m_constraint :=
          if (w.objs a.m_gameobj).GetGameObjectType = OBJ_ARMATURE then
            (w.objs a.m_gameobj).GetConstraint a.m_posechannel a.m_constraintname
          else NULL } := by
  have e : ({ a with m_constraint := NULL } : SCA_ArmatureActuator).m_gameobj = a.m_gameobj := rfl
  by_cases h : (w.objs a.m_gameobj).GetGameObjectType = OBJ_ARMATURE
  · simp only [FindConstraint, e, if_pos h]
  · simp only [FindConstraint, e, if_neg h]

theorem RegisterActuator_static (w : Scene) (obj act x : Ptr) :
    ((w.RegisterActuator obj act).objs x).m_objectType = (w.objs x).m_objectType ∧
    ((w.RegisterActuator obj act).objs x).m_constraints = (w.objs x).m_constraints := by
  unfold Scene.RegisterActuator SCA_IObject.RegisterActuator
  by_cases hx : x = obj
  · subst hx
    by_cases hm : act ∈ (w.objs x).m_registeredActuators <;> simp [hm]
  · simp [Function.update_noteq hx]

/-- C13: right after construction the constraint handle is the result of the
owner's registry lookup for (pose channel, constraint name) when the owner is an
armature object, and null when it is not (whatever its registry holds); so it is
non-null for an armature owner with a resolvable pair. Construction always
yields a unit: a lookup miss gives a null handle. -/
theorem construct_resolves_handle (self : Ptr) (w : Scene) (obj : Ptr) (type : Int)
    (posechannel constraintname : String) (targetobj subtargetobj : Ptr)
    (weight influence : Rat) :
    (Construct self w obj type posechannel constraintname targetobj subtargetobj
      weight influence).1.m_constraint =
      (if (w.objs obj).GetGameObjectType = OBJ_ARMATURE then
        (w.objs obj).GetConstraint posechannel constraintname
      else NULL) ∧
    ((w.objs obj).GetGameObjectType = OBJ_ARMATURE →
      (w.objs obj).GetConstraint posechannel constraintname ≠ NULL →
      (Construct self w obj type posechannel constraintname targetobj subtargetobj
        weight influence).1.m_constraint ≠ NULL) ∧
    ((w.objs obj).GetGameObjectType ≠ OBJ_ARMATURE →
      (Construct self w obj type posechannel constraintname targetobj subtargetobj
        weight influence).1.m_constraint = NULL) := by
  have key : (Construct self w obj type posechannel constraintname targetobj subtargetobj
      weight influence).1.m_constraint =
      (if (w.objs obj).GetGameObjectType = OBJ_ARMATURE then
        (w.objs obj).GetConstraint posechannel constraintname
      else NULL) := by
    simp only [Construct, FindConstraint_eq, SCA_IActuator.Construct,
      SCA_IObject.GetGameObjectType, SCA_IObject.GetConstraint]
    by_cases h1 : targetobj = NULL <;> by_cases h2 : subtargetobj = NULL <;>
      simp [h1, h2, (RegisterActuator_static _ _ _ _).1, (RegisterActuator_static _ _ _ _).2]
  refine ⟨key, ?_, ?_⟩
  · intro ha hr
    rw [key, if_pos ha]
    exact hr
  · intro ha
    rw [key, if_neg ha]

/-- C14: after `ReParent(N)` the owner is `N` and the handle is the result of
`N`'s registry lookup for the unit's (pose channel, constraint name) when `N` is
an armature object and null otherwise; it does not depend on the handle held
before. Every other field of the unit is unchanged, and the call does not write
the scene, so all registrations are unchanged. -/
theorem reparent_reresolves (a : SCA_ArmatureActuator) (w : Scene) (N : Ptr) :
    a.ReParent w N =
      { a with
        m_gameobj := N
        m_constraint :=
          if (w.objs N).GetGameObjectType = OBJ_ARMATURE then
            (w.objs N).GetConstraint a.m_posechannel a.m_constraintname
          else NULL } ∧
    (∀ c : Ptr, ({ a with m_constraint := c } : SCA_ArmatureActuator).ReParent w N
      = a.ReParent w N) ∧
    ((w.objs N).GetGameObjectType ≠ OBJ_ARMATURE → (a.ReParent w N).m_constraint = NULL) ∧
    (∀ (W : World) (self : Ptr), (W.ReParent self N).scene = W.scene) := by
  have key : ∀ b : SCA_ArmatureActuator, b.ReParent w N =
      { b with
        m_gameobj := N
        m_constraint :=
          if (w.objs N).GetGameObjectType = OBJ_ARMATURE then
            (w.objs N).GetConstraint b.m_posechannel b.m_constraintname
          else NULL } := by
    intro b
    unfold ReParent
    rw [FindConstraint_eq]
    rfl
  refine ⟨key a, ?_, ?_, ?_⟩
  · intro c
    rw [key, key]
  · intro hN
    rw [key]
    simp [hN]
  · intro W self
    unfold World.ReParent
    cases W.units self <;> rfl

/-! ### What a step can change -/

/-- C17: for every unit, scene, time and trigger polarity, `Update` leaves the
unit as it was except for the drained events (selector, target, subtarget,
weight, influence, names and handle are the same), leaves every object's
registered-actuator set, type and constraint registry unchanged, leaves every
object other than the owner unchanged, and leaves every constraint other than
the one behind the unit's handle unchanged. -/
theorem update_frame (a : SCA_ArmatureActuator) (w : Scene) (curtime : Rat) (frame : Bool) :
    (a.Update w curtime frame).2.1 = a.RemoveAllEvents ∧
    ((a.Update w curtime frame).2.1.m_type = a.m_type ∧
      (a.Update w curtime frame).2.1.m_gametarget = a.m_gametarget ∧
      (a.Update w curtime frame).2.1.m_gamesubtarget = a.m_gamesubtarget ∧
      (a.Update w curtime frame).2.1.m_weight = a.m_weight ∧
      (a.Update w curtime frame).2.1.m_influence = a.m_influence ∧
      (a.Update w curtime frame).2.1.m_posechannel = a.m_posechannel ∧
      (a.Update w curtime frame).2.1.m_constraintname = a.m_constraintname ∧
      (a.Update w curtime frame).2.1.m_constraint = a.m_constraint ∧
      (a.Update w curtime frame).2.1.m_gameobj = a.m_gameobj) ∧
    (∀ O, ((a.Update w curtime frame).2.2.objs O).m_registeredActuators
        = (w.objs O).m_registeredActuators ∧
      ((a.Update w curtime frame).2.2.objs O).m_objectType = (w.objs O).m_objectType ∧
      ((a.Update w curtime frame).2.2.objs O).m_constraints = (w.objs O).m_constraints) ∧
    (∀ O, O ≠ a.m_gameobj → (a.Update w curtime frame).2.2.objs O = w.objs O) ∧
    (∀ c, c ≠ a.m_constraint → (a.Update w curtime frame).2.2.cons c = w.cons c) := by
  have hsplit : ∀ P : Bool × SCA_ArmatureActuator × Scene → Prop,
      P (false, a.RemoveAllEvents, w) →
      P (true, a.RemoveAllEvents, w.UpdateTimestep a.m_gameobj curtime) →
      (∀ f, P (false, a.RemoveAllEvents, w.onConstraint a.m_constraint f)) →
      (∀ f g, P (false, a.RemoveAllEvents,
        (w.onConstraint a.m_constraint f).onConstraint a.m_constraint g)) →
      P (a.Update w curtime frame) := by
    intro P h0 hrun hone htwo
    have e1 : a.RemoveAllEvents.m_constraint = a.m_constraint := rfl
    have e2 : a.RemoveAllEvents.GetParent = a.m_gameobj := rfl
    unfold Update
    cases hp : a.m_posevent
    · simp only [IsNegativeEvent, hp, Bool.not_true, Bool.not_false, if_true]
      exact h0
    · simp only [IsNegativeEvent, hp, Bool.not_true, Bool.not_false, if_true, e1, e2]
      split_ifs <;> first
        | exact h0
        | exact hrun
        | exact hone _
        | exact htwo _ _
  have h1 : (a.Update w curtime frame).2.1 = a.RemoveAllEvents :=
    hsplit (fun r => r.2.1 = a.RemoveAllEvents) rfl rfl (fun _ => rfl) (fun _ _ => rfl)
  have hobj : (a.Update w curtime frame).2.2.objs = w.objs ∨
      (a.Update w curtime frame).2.2.objs = (w.UpdateTimestep a.m_gameobj curtime).objs :=
    hsplit (fun r => r.2.2.objs = w.objs ∨
        r.2.2.objs = (w.UpdateTimestep a.m_gameobj curtime).objs)
      (Or.inl rfl) (Or.inr rfl) (fun _ => Or.inl rfl) (fun _ _ => Or.inl rfl)
  have hcons : ∀ c, c ≠ a.m_constraint → (a.Update w curtime frame).2.2.cons c = w.cons c := by
    intro c hne
    refine hsplit (fun r => r.2.2.cons c = w.cons c) rfl rfl ?_ ?_
    · intro f
      simp [Scene.onConstraint, Function.update_noteq hne]
    · intro f g
      simp [Scene.onConstraint, Function.update_noteq hne]
  refine ⟨h1, ?_, ?_, ?_, hcons⟩
  · rw [h1]
    exact ⟨rfl, rfl, rfl, rfl, rfl, rfl, rfl, rfl, rfl⟩
  · intro O
    rcases hobj with h | h
    · rw [h]; exact ⟨rfl, rfl, rfl⟩
    · rw [h]
      by_cases hO : O = a.m_gameobj
      · subst hO
        simp [Scene.UpdateTimestep, SCA_IObject.UpdateTimestep]
      · simp [Scene.UpdateTimestep, Function.update_noteq hO]
  · intro O hO
    rcases hobj with h | h
    · rw [h]
    · rw [h]
      simp [Scene.UpdateTimestep, Function.update_noteq hO]

/-! ### The map handed to `Relink` -/

theorem ObjMap.index_snd (m : ObjMap) (k k2 : Ptr) :
    (m.index k).2 k2 = if k2 = k ∧ m k = none then some NULL else m k2 := by
  unfold ObjMap.index
  cases hk : m k with
  | some v => simp
  | none =>
    by_cases h : k2 = k
    · subst h; simp [Function.update_same]
    · simp [Function.update_noteq h, h]

theorem Relink_congr (self : Ptr) (a : SCA_ArmatureActuator) (w : Scene) (m m2 : ObjMap)
    (h : ∀ k, m2.find k = m.find k) :
    (a.Relink self w m2).1 = (a.Relink self w m).1 ∧
    (a.Relink self w m2).2.1 = (a.Relink self w m).2.1 := by
  rw [Relink_eq, Relink_eq]
  simp only [h, and_self]

/-- C16: `Relink` keeps the value of every key that is in the map, and the only
entries it adds are null values for the unit's target and subtarget as they were
before the call, when these keys were missing. A key that is present and mapped
to null acts like a missing key: removing it from the map gives the same unit
and the same scene, and a null image for a field leaves that field as it was. -/
theorem relink_map_effect (self : Ptr) (a : SCA_ArmatureActuator) (w : Scene) (m : ObjMap) :
    (∀ k v, m k = some v → (a.Relink self w m).2.2 k = some v) ∧
    (∀ k, m k = none →
      (a.Relink self w m).2.2 k =
        if k = a.m_gametarget ∨ k = a.m_gamesubtarget then some NULL else none) ∧
    (∀ k, m k = some NULL →
      (a.Relink self w (Function.update m k none)).1 = (a.Relink self w m).1 ∧
      (a.Relink self w (Function.update m k none)).2.1 = (a.Relink self w m).2.1) ∧
    (m a.m_gametarget = some NULL →
      (a.Relink self w m).1.m_gametarget = a.m_gametarget) ∧
    (m a.m_gamesubtarget = some NULL →
      (a.Relink self w m).1.m_gamesubtarget = a.m_gamesubtarget) := by
  refine ⟨?_, ?_, ?_, ?_, ?_⟩
  · intro k v hk
    rw [Relink_eq]
    simp only [ObjMap.index_snd, hk]
    have hB : ¬ (k = a.m_gametarget ∧ m a.m_gametarget = none) := by
      rintro ⟨hkt, hn⟩
      rw [← hkt, hk] at hn
      cases hn
    have hA : ¬ (k = a.m_gamesubtarget ∧
        (if a.m_gamesubtarget = a.m_gametarget ∧ m a.m_gametarget = none then some NULL
          else m a.m_gamesubtarget) = none) := by
      rintro ⟨hks, hX⟩
      split_ifs at hX
      rw [← hks, hk] at hX
      cases hX
    rw [if_neg hA, if_neg hB]
  · intro k hk
    rw [Relink_eq]
    simp only [ObjMap.index_snd, hk]
    by_cases h1 : k = a.m_gametarget
    · subst h1; simp [hk]
    · by_cases h2 : k = a.m_gamesubtarget
      · subst h2; simp [hk, h1]
      · simp [h1, h2]
  · intro k hk
    apply Relink_congr
    intro k2
    unfold ObjMap.find ObjMap.index
    by_cases h : k2 = k
    · subst h; simp [hk, Function.update_same, NULL]
    · simp only [Function.update_noteq h]
      cases m k2 <;> rfl
  · intro h
    rw [Relink_eq]
    simp [ObjMap.find, ObjMap.index, h]
  · intro h
    rw [Relink_eq]
    simp [ObjMap.find, ObjMap.index, h]

/-! ### Destruction -/

theorem retarget_twice_only (R : Prop) (O t s ht hs : Nat)
    (hpre : R → O ≠ NULL ∧ (t = O ∨ s = O))
    (h : if hs ≠ NULL then
        O = hs ∨ ((if ht ≠ NULL then O = ht ∨ (R ∧ ¬ (t ≠ NULL ∧ O = t)) else R) ∧
          ¬ (s ≠ NULL ∧ O = s))
      else (if ht ≠ NULL then O = ht ∨ (R ∧ ¬ (t ≠ NULL ∧ O = t)) else R)) :
    O ≠ NULL ∧ ((if ht ≠ NULL then ht else t) = O ∨ (if hs ≠ NULL then hs else s) = O) := by
  by_cases hR : R
  · have hp := hpre hR
    unfold NULL at *
    split_ifs at h ⊢ <;> simp only [hR, true_and] at h <;> omega
  · unfold NULL at *
    split_ifs at h ⊢ <;> simp only [hR, false_and, or_false] at h <;> omega

theorem GetReplica_fst (a : SCA_ArmatureActuator) (replica : Ptr) (w : Scene) :
    (a.GetReplica replica w).1 = a := rfl

theorem GetReplica_registered (a : SCA_ArmatureActuator) (replica : Ptr) (w : Scene)
    (O v : Ptr) :
    (a.GetReplica replica w).2.registered O v ↔
      ((O = a.m_gametarget ∧ a.m_gametarget ≠ NULL ∧ v = replica) ∨ w.registered O v) ∧
        ¬ (a.m_gamesubtarget ≠ NULL ∧ O = a.m_gamesubtarget ∧ v = replica) := by
  simp only [GetReplica, ProcessReplica]
  by_cases h1 : a.m_gametarget = NULL <;> by_cases h2 : a.m_gamesubtarget = NULL <;>
    simp [h1, h2, registered_RegisterActuator, registered_UnregisterActuator]

theorem Destruct_registered (self : Ptr) (a : SCA_ArmatureActuator) (w : Scene) (O v : Ptr) :
    (Destruct self a w).registered O v ↔
      w.registered O v ∧ ¬ (a.m_gametarget ≠ NULL ∧ O = a.m_gametarget ∧ v = self) ∧
        ¬ (a.m_gamesubtarget ≠ NULL ∧ O = a.m_gamesubtarget ∧ v = self) := by
  simp only [Destruct]
  by_cases h1 : a.m_gametarget = NULL <;> by_cases h2 : a.m_gamesubtarget = NULL <;>
    simp [h1, h2, registered_UnregisterActuator, and_assoc]

theorem call_keeps_accounted (W : World) (c : Call) (hA : W.Accounted) (hc : c.NoUnlink) :
    (W.call c).Accounted := by
  cases c with
  | Construct self obj type posechannel constraintname targetobj subtargetobj weight influence =>
    simp only [World.call]
    cases hu : W.units self with
    | some b => exact hA
    | none =>
      intro O u hreg
      have hf := Construct_fields self W.scene obj type posechannel constraintname targetobj
        subtargetobj weight influence
      simp only [Construct_registered] at hreg
      rcases hreg with ⟨h1, h2, h3⟩ | ⟨h1, h2, h3⟩ | h
      · subst h3
        exact ⟨by rw [h1]; exact h2, _, Function.update_same _ _ _, Or.inr (by rw [hf.2, h1])⟩
      · subst h3
        exact ⟨by rw [h1]; exact h2, _, Function.update_same _ _ _, Or.inl (by rw [hf.1, h1])⟩
      · obtain ⟨hO, b, hb, href⟩ := hA O u h
        have hus : u ≠ self := by
          intro e; rw [e, hu] at hb; cases hb
        exact ⟨hO, b, by simp [Function.update_noteq hus, hb], href⟩
  | Clone self replica =>
    simp only [World.call]
    cases hu : W.units self with
    | none => exact hA
    | some a =>
      cases hr : W.units replica with
      | some b => exact hA
      | none =>
        intro O u hreg
        simp only [GetReplica_registered] at hreg
        rcases hreg.1 with ⟨h1, h2, h3⟩ | h
        · subst h3
          exact ⟨by rw [h1]; exact h2, a, Function.update_same _ _ _, Or.inl h1.symm⟩
        · obtain ⟨hO, b, hb, href⟩ := hA O u h
          have hus : u ≠ replica := by
            intro e; rw [e, hr] at hb; cases hb
          exact ⟨hO, b, by simp [Function.update_noteq hus, hb], href⟩
  | Unlink self clientobj => exact absurd hc id
  | Remap self m =>
    simp only [World.call]
    cases hu : W.units self with
    | none => exact hA
    | some a =>
      intro O u hreg
      simp only [Relink_eq, registered_retarget] at hreg
      by_cases hus : u = self
      · subst hus
        simp only [and_true] at hreg
        have hpre : W.scene.registered O u →
            O ≠ NULL ∧ (a.m_gametarget = O ∨ a.m_gamesubtarget = O) := by
          intro h
          obtain ⟨hO, b, hb, href⟩ := hA O u h
          rw [hu] at hb
          cases hb
          exact ⟨hO, href⟩
        have hres := retarget_twice_only _ O a.m_gametarget a.m_gamesubtarget _ _ hpre hreg
        refine ⟨hres.1, _, Function.update_same _ _ _, ?_⟩
        rw [Relink_eq]
        exact hres.2
      · simp only [hus, and_false, false_or, not_false_eq_true, and_true, ite_self] at hreg
        obtain ⟨hO, b, hb, href⟩ := hA O u hreg
        exact ⟨hO, b, by simp [Function.update_noteq hus, hb], href⟩

theorem run_keeps_accounted (calls : List Call) :
    ∀ W : World, W.Accounted → (∀ c ∈ calls, c.NoUnlink) → (W.run calls).Accounted := by
  induction calls with
  | nil => intro W hA _; exact hA
  | cons c cs ih =>
    intro W hA hc
    exact ih (W.call c) (call_keeps_accounted W c hA (hc c (List.mem_cons_self c cs)))
      (fun d hd => hc d (List.mem_cons_of_mem c hd))

theorem initial_accounted (W : World) (h : W.Initial) : W.Accounted := by
  intro O u hreg
  simp [Scene.registered, h.2 O] at hreg

theorem SCA_IObject.unregister_of_not_mem (o : SCA_IObject) (u : Ptr)
    (h : u ∉ o.m_registeredActuators) : o.UnregisterActuator u = o := by
  unfold SCA_IObject.UnregisterActuator
  have : o.m_registeredActuators.filter (fun x => x != u) = o.m_registeredActuators := by
    rw [List.filter_eq_self]
    intro x hx
    simp only [bne_iff_ne, ne_eq]
    intro e
    exact h (e ▸ hx)
  rw [this]

theorem SCA_IObject.unregister_register (o : SCA_IObject) (u : Ptr)
    (h : u ∉ o.m_registeredActuators) : (o.RegisterActuator u).UnregisterActuator u = o := by
  have hf : o.m_registeredActuators.filter (fun x => x != u) = o.m_registeredActuators := by
    rw [List.filter_eq_self]
    intro x hx
    simp only [bne_iff_ne, ne_eq]
    intro e
    exact h (e ▸ hx)
  unfold SCA_IObject.RegisterActuator SCA_IObject.UnregisterActuator
  simp [h, List.filter_append, hf]

theorem SCA_IObject.register_register (o : SCA_IObject) (u : Ptr) :
    (o.RegisterActuator u).RegisterActuator u = o.RegisterActuator u := by
  unfold SCA_IObject.RegisterActuator
  by_cases h : u ∈ o.m_registeredActuators <;> simp [h]

theorem Construct_Destruct_objs (self : Ptr) (w : Scene) (obj : Ptr) (type : Int)
    (posechannel constraintname : String) (targetobj subtargetobj : Ptr)
    (weight influence : Rat) (hfresh : ∀ O, ¬ w.registered O self) (O : Ptr) :
    (Destruct self
      (Construct self w obj type posechannel constraintname targetobj subtargetobj
        weight influence).1
      (Construct self w obj type posechannel constraintname targetobj subtargetobj
        weight influence).2).objs O = w.objs O := by
  have hf := Construct_fields self w obj type posechannel constraintname targetobj
    subtargetobj weight influence
  have hn : ∀ x, self ∉ (w.objs x).m_registeredActuators := hfresh
  unfold Destruct
  rw [hf.1, hf.2]
  simp only [Construct]
  by_cases hts : targetobj = subtargetobj
  · subst hts
    by_cases ht : targetobj = NULL <;> by_cases h1 : O = targetobj <;>
      simp [ht, h1, Scene.RegisterActuator, Scene.UnregisterActuator,
        Function.update_apply, SCA_IObject.unregister_register,
        SCA_IObject.register_register, SCA_IObject.unregister_of_not_mem, hn]
  · have hst : subtargetobj ≠ targetobj := Ne.symm hts
    by_cases ht : targetobj = NULL <;> by_cases hs : subtargetobj = NULL <;>
      by_cases h1 : O = targetobj <;> by_cases h2 : O = subtargetobj <;>
      first
        | exact absurd (h1.symm.trans h2) hts
        | simp [ht, hs, h1, h2, hts, hst, Scene.RegisterActuator, Scene.UnregisterActuator,
            Function.update_apply, SCA_IObject.unregister_register,
            SCA_IObject.register_register, SCA_IObject.unregister_of_not_mem, hn]

/-- C15: start from a scene with no unit and nothing registered, and make any
sequence of `Construct`, `Clone` and `Remap` calls. Then a unit that is
destroyed is afterwards registered with no object, and the destruction changes
no other unit's registrations. In particular constructing a unit at a free
address and destroying it at once gives back every object as it was before the
construction, registered-actuator set included, for every choice of target and
subtarget (equal or not, null or not). -/
theorem destroy_releases (W : World) (calls : List Call) (hinit : W.Initial)
    (hcalls : ∀ c ∈ calls, c.NoUnlink) :
    (∀ u O, ¬ ((W.run calls).Destroy u).scene.registered O u) ∧
    (∀ u v O, v ≠ u →
      (((W.run calls).Destroy u).scene.registered O v ↔ (W.run calls).scene.registered O v)) ∧
    (∀ (self obj : Ptr) (type : Int) (posechannel constraintname : String)
      (targetobj subtargetobj : Ptr) (weight influence : Rat) (O : Ptr),
      (W.run calls).units self = none →
      (((W.run calls).call (Call.Construct self obj type posechannel constraintname
        targetobj subtargetobj weight influence)).Destroy self).scene.objs O
        = (W.run calls).scene.objs O) := by
  have hA := run_keeps_accounted calls W (initial_accounted W hinit) hcalls
  generalize W.run calls = V at hA
  refine ⟨?_, ?_, ?_⟩
  · intro u O hreg
    unfold World.Destroy at hreg
    cases hu : V.units u with
    | none =>
      simp only [hu] at hreg
      obtain ⟨_, b, hb, _⟩ := hA O u hreg
      rw [hu] at hb
      cases hb
    | some a =>
      simp only [hu, Destruct_registered, and_true] at hreg
      obtain ⟨hO, b, hb, href⟩ := hA O u hreg.1
      rw [hu] at hb
      cases hb
      rcases href with h | h
      · exact hreg.2.1 ⟨by rw [h]; exact hO, h.symm⟩
      · exact hreg.2.2 ⟨by rw [h]; exact hO, h.symm⟩
  · intro u v O hne
    unfold World.Destroy
    cases hu : V.units u with
    | none => simp only []
    | some a => simp only [Destruct_registered, hne, and_false, not_false_eq_true, and_true]
  · intro self obj type posechannel constraintname targetobj subtargetobj weight influence O hu
    have hfresh : ∀ x, ¬ V.scene.registered x self := by
      intro x hx
      obtain ⟨_, b, hb, _⟩ := hA x self hx
      rw [hu] at hb
      cases hb
    simp only [World.call, hu, World.Destroy, Function.update_same]
    exact Construct_Destruct_objs self V.scene obj type posechannel constraintname targetobj
      subtargetobj weight influence hfresh O

/-- Witness of `destroy_releases`: unit 10 is constructed, cloned to 11 and
remapped with the chain map, then destroyed. -/
theorem destroy_releases_witness :
    sampleWorld.Initial ∧
    ¬ ((sampleWorld.run [sampleConstruct, Call.Clone 10 11, Call.Remap 10 chainMap]).Destroy
      10).scene.registered 3 10 :=
  ⟨⟨fun _ => rfl, fun _ => rfl⟩,
   (destroy_releases sampleWorld [sampleConstruct, Call.Clone 10 11, Call.Remap 10 chainMap]
      ⟨fun _ => rfl, fun _ => rfl⟩
      (fun c hc => by
        simp only [List.mem_cons, List.mem_singleton, List.not_mem_nil, or_false] at hc
        rcases hc with rfl | rfl | rfl <;> trivial)).1 10 3⟩

/-! ### The registration invariant, pair by pair -/

theorem retarget_twice_ledger (R M : Prop) (O t s ht hs : Nat) (hfun : t = s → ht = hs)
    (hpre : ¬ M → (t = O ∨ s = O) → R)
    (hflag : ¬ ((hs ≠ NULL ∧ ht ≠ NULL ∧ O = ht ∧ ht = s ∧ hs ≠ ht) ∨
      (M ∧ ¬ (ht ≠ NULL ∧ O = ht) ∧ ¬ (hs ≠ NULL ∧ O = hs) ∧
        ((ht = NULL ∧ O = t) ∨ (hs = NULL ∧ O = s)))))
    (hpost : (if ht ≠ NULL then ht else t) = O ∨ (if hs ≠ NULL then hs else s) = O) :
    (if hs ≠ NULL then
        O = hs ∨ ((if ht ≠ NULL then O = ht ∨ (R ∧ ¬ (t ≠ NULL ∧ O = t)) else R) ∧
          ¬ (s ≠ NULL ∧ O = s))
      else (if ht ≠ NULL then O = ht ∨ (R ∧ ¬ (t ≠ NULL ∧ O = t)) else R)) := by
  unfold NULL at *
  by_cases hR : R
  · split_ifs at hpost ⊢ <;> simp only [hR, true_and] <;> omega
  · by_cases hM : M
    · simp only [hM, true_and] at hflag
      split_ifs at hpost ⊢ <;> simp only [hR, false_and, or_false] <;> omega
    · have h := mt (hpre hM) hR
      simp only [hM, false_and, or_false] at hflag
      split_ifs at hpost ⊢ <;> simp only [hR, false_and, or_false] <;> omega

theorem call_sound (W : World) (L : Ledger) (c : Call) (h : W.Sound L) :
    (W.call c).Sound (L.call W c) := by
  cases c with
  | Construct self obj type posechannel constraintname targetobj subtargetobj weight influence =>
    simp only [World.call, Ledger.call]
    cases hu : W.units self with
    | some b => exact h
    | none =>
      intro O u hO
      have hf := Construct_fields self W.scene obj type posechannel constraintname targetobj
        subtargetobj weight influence
      refine ⟨?_, ?_⟩
      · intro hst hreg
        simp only [Construct_registered] at hreg
        rcases hreg with ⟨h1, _, h3⟩ | ⟨h1, _, h3⟩ | hr
        · subst h3
          exact ⟨_, Function.update_same _ _ _, Or.inr (by rw [hf.2, h1])⟩
        · subst h3
          exact ⟨_, Function.update_same _ _ _, Or.inl (by rw [hf.1, h1])⟩
        · obtain ⟨b, hb, href⟩ := (h O u hO).1 hst hr
          have hus : u ≠ self := by
            intro e; rw [e, hu] at hb; cases hb
          exact ⟨b, by simp only [Function.update_noteq hus, hb], href⟩
      · rintro hm ⟨b, hb, href⟩
        simp only [Construct_registered]
        by_cases hus : u = self
        · subst hus
          simp only [Function.update_same, Option.some.injEq] at hb
          subst hb
          rw [hf.1, hf.2] at href
          rcases href with h1 | h1
          · exact Or.inr (Or.inl ⟨h1.symm, by rw [h1]; exact hO, rfl⟩)
          · exact Or.inl ⟨h1.symm, by rw [h1]; exact hO, rfl⟩
        · simp only [Function.update_noteq hus] at hb
          exact Or.inr (Or.inr ((h O u hO).2 hm ⟨b, hb, href⟩))
  | Clone self replica =>
    simp only [World.call, Ledger.call]
    cases hu : W.units self with
    | none => exact h
    | some a =>
      cases hr : W.units replica with
      | some b => exact h
      | none =>
        intro O u hO
        refine ⟨?_, ?_⟩
        · intro hst hreg
          simp only [GetReplica_registered] at hreg
          rcases hreg.1 with ⟨h1, _, h3⟩ | hr2
          · subst h3
            exact ⟨a, Function.update_same _ _ _, Or.inl h1.symm⟩
          · obtain ⟨b, hb, href⟩ := (h O u hO).1 hst hr2
            have hus : u ≠ replica := by
              intro e; rw [e, hr] at hb; cases hb
            exact ⟨b, by simp only [Function.update_noteq hus, hb], href⟩
        · rintro hm ⟨b, hb, href⟩
          have hm2 := of_decide_eq_false hm
          have hmL : L.missing O u = false := by
            cases hx : L.missing O u
            · rfl
            · exact absurd (Or.inl hx) hm2
          simp only [GetReplica_registered]
          by_cases hus : u = replica
          · subst hus
            simp only [Function.update_same, Option.some.injEq, GetReplica_fst] at hb
            subst hb
            have hs : O ≠ a.m_gamesubtarget := by
              intro e
              exact hm2 (Or.inr ⟨rfl, e, by rw [← e]; exact hO⟩)
            have ht : a.m_gametarget = O := by
              rcases href with h1 | h1
              · exact h1
              · exact absurd h1.symm hs
            exact ⟨Or.inl ⟨ht.symm, by rw [ht]; exact hO, rfl⟩, fun hh => hs hh.2.1⟩
          · simp only [Function.update_noteq hus] at hb
            exact ⟨Or.inr ((h O u hO).2 hmL ⟨b, hb, href⟩), fun hh => hus hh.2.2⟩
  | Unlink self clientobj =>
    simp only [World.call, Ledger.call]
    cases hu : W.units self with
    | none => exact h
    | some a =>
      intro O u hO
      have hk := unlink_fields a clientobj
      refine ⟨?_, ?_⟩
      · intro hst hreg
        have hst2 := of_decide_eq_false hst
        have hstL : L.stale O u = false := by
          cases hx : L.stale O u
          · rfl
          · exact absurd (Or.inl hx) hst2
        obtain ⟨b, hb, href⟩ := (h O u hO).1 hstL hreg
        by_cases hus : u = self
        · subst hus
          rw [hu] at hb
          cases hb
          have hOD : O ≠ clientobj := by
            intro e
            refine hst2 (Or.inr ⟨rfl, e, ?_⟩)
            rw [← e]
            exact href
          refine ⟨_, Function.update_same _ _ _, ?_⟩
          rw [hk.1, hk.2]
          rcases href with h1 | h1
          · left
            rw [if_neg (by rw [h1]; exact fun e => hOD e.symm)]
            exact h1
          · right
            rw [if_neg (by rw [h1]; exact fun e => hOD e.symm)]
            exact h1
        · exact ⟨b, by simp only [Function.update_noteq hus, hb], href⟩
      · rintro hm ⟨b, hb, href⟩
        have hm2 := of_decide_eq_false hm
        by_cases hus : u = self
        · subst hus
          simp only [Function.update_same, Option.some.injEq] at hb
          subst hb
          rw [hk.1, hk.2] at href
          have href2 : (a.m_gametarget = O ∨ a.m_gamesubtarget = O) ∧ O ≠ clientobj := by
            rcases href with h1 | h1
            · by_cases e : clientobj = a.m_gametarget
              · rw [if_pos e] at h1; exact absurd h1.symm hO
              · rw [if_neg e] at h1; exact ⟨Or.inl h1, by rw [← h1]; exact fun x => e x.symm⟩
            · by_cases e : clientobj = a.m_gamesubtarget
              · rw [if_pos e] at h1; exact absurd h1.symm hO
              · rw [if_neg e] at h1; exact ⟨Or.inr h1, by rw [← h1]; exact fun x => e x.symm⟩
          have hmL : L.missing O u = false := by
            cases hx : L.missing O u
            · rfl
            · exact absurd ⟨hx, fun hh => href2.2 hh.2⟩ hm2
          exact (h O u hO).2 hmL ⟨a, hu, href2.1⟩
        · simp only [Function.update_noteq hus] at hb
          have hmL : L.missing O u = false := by
            cases hx : L.missing O u
            · rfl
            · exact absurd ⟨hx, fun hh => hus hh.1⟩ hm2
          exact (h O u hO).2 hmL ⟨b, hb, href⟩
  | Remap self m =>
    simp only [World.call, Ledger.call]
    cases hu : W.units self with
    | none => exact h
    | some a =>
      intro O u hO
      refine ⟨?_, ?_⟩
      · intro hst hreg
        have hst2 := of_decide_eq_false hst
        simp only [Relink_eq, registered_retarget] at hreg
        by_cases hus : u = self
        · subst hus
          simp only [and_true] at hreg
          by_cases hpostref :
              (if m.find a.m_gametarget ≠ NULL then m.find a.m_gametarget else a.m_gametarget)
                = O ∨
              (if m.find a.m_gamesubtarget ≠ NULL then m.find a.m_gamesubtarget
                else a.m_gamesubtarget) = O
          · refine ⟨_, Function.update_same _ _ _, ?_⟩
            rw [Relink_eq]
            exact hpostref
          · have hstL : L.stale O u = false := by
              cases hx : L.stale O u
              · rfl
              · exact absurd ⟨hx, fun hh => hpostref hh.2⟩ hst2
            have hpre : W.scene.registered O u →
                O ≠ NULL ∧ (a.m_gametarget = O ∨ a.m_gamesubtarget = O) := by
              intro hr
              obtain ⟨b, hb, href⟩ := (h O u hO).1 hstL hr
              rw [hu] at hb
              cases hb
              exact ⟨hO, href⟩
            exact absurd
              (retarget_twice_only _ O a.m_gametarget a.m_gamesubtarget _ _ hpre hreg).2
              hpostref
        · simp only [hus, and_false, false_or, not_false_eq_true, and_true, ite_self] at hreg
          have hstL : L.stale O u = false := by
            cases hx : L.stale O u
            · rfl
            · exact absurd ⟨hx, fun hh => hus hh.1⟩ hst2
          obtain ⟨b, hb, href⟩ := (h O u hO).1 hstL hreg
          exact ⟨b, by simp only [Function.update_noteq hus, hb], href⟩
      · rintro hm ⟨b, hb, href⟩
        have hm2 := of_decide_eq_false hm
        simp only [Relink_eq, registered_retarget]
        by_cases hus : u = self
        · subst hus
          simp only [Function.update_same, Option.some.injEq] at hb
          subst hb
          simp only [if_true] at hm2
          simp only [and_true]
          refine retarget_twice_ledger _ (L.missing O u = true) O a.m_gametarget
            a.m_gamesubtarget _ _ (fun e => by rw [e]) ?_ hm2 (by simpa only [Relink_eq] using href)
          intro hnm href0
          have hmL : L.missing O u = false := by
            cases hx : L.missing O u
            · rfl
            · exact absurd hx hnm
          exact (h O u hO).2 hmL ⟨a, hu, href0⟩
        · simp only [Function.update_noteq hus] at hb
          simp only [if_neg hus] at hm2
          have hmL : L.missing O u = false := by
            cases hx : L.missing O u
            · rfl
            · exact absurd hx hm2
          simp only [hus, and_false, false_or, not_false_eq_true, and_true, ite_self]
          exact (h O u hO).2 hmL ⟨b, hb, href⟩

theorem run_sound (calls : List Call) :
    ∀ (W : World) (L : Ledger), W.Sound L → (W.run calls).Sound (Ledger.run L W calls) := by
  induction calls with
  | nil => intro W L h; exact h
  | cons c cs ih =>
    intro W L h
    exact ih (W.call c) (L.call W c) (call_sound W L c h)

theorem initial_sound (W : World) (L : Ledger) (h : W.Initial) : W.Sound L := by
  intro O u _
  refine ⟨?_, ?_⟩
  · intro _ hreg
    simp [Scene.registered, h.2 O] at hreg
  · rintro _ ⟨a, ha, _⟩
    rw [h.1 u] at ha
    cases ha

theorem call_keeps_no_stale (W : World) (L : Ledger) (c : Call) (hc : c.NoUnlink)
    (hL : ∀ O u, L.stale O u = false) : ∀ O u, (L.call W c).stale O u = false := by
  cases c with
  | Construct self obj type posechannel constraintname targetobj subtargetobj weight influence =>
    exact hL
  | Clone self replica =>
    simp only [Ledger.call]
    cases W.units self with
    | none => exact hL
    | some a =>
      cases W.units replica with
      | none => exact hL
      | some b => exact hL
  | Unlink self clientobj => exact absurd hc id
  | Remap self m =>
    simp only [Ledger.call]
    cases W.units self with
    | none => exact hL
    | some a =>
      intro O u
      simp [hL O u]

theorem run_keeps_no_stale (calls : List Call) :
    ∀ (W : World) (L : Ledger), (∀ c ∈ calls, c.NoUnlink) → (∀ O u, L.stale O u = false) →
      ∀ O u, (Ledger.run L W calls).stale O u = false := by
  induction calls with
  | nil => intro W L _ hL; exact hL
  | cons c cs ih =>
    intro W L hc hL
    exact ih (W.call c) (L.call W c) (fun d hd => hc d (List.mem_cons_of_mem c hd))
      (call_keeps_no_stale W L c (hc c (List.mem_cons_self c cs)) hL)

theorem call_keeps_empty (W : World) (L : Ledger) (c : Call) (hc : c.Clean W)
    (hL : ∀ O u, L.stale O u = false ∧ L.missing O u = false) :
    ∀ O u, (L.call W c).stale O u = false ∧ (L.call W c).missing O u = false := by
  cases c with
  | Construct self obj type posechannel constraintname targetobj subtargetobj weight influence =>
    exact hL
  | Clone self replica =>
    simp only [Ledger.call]
    cases hu : W.units self with
    | none => exact hL
    | some a =>
      cases W.units replica with
      | some b => exact hL
      | none =>
        intro O u
        have hs : a.m_gamesubtarget = NULL := hc a hu
        simp [(hL O u).1, (hL O u).2, hs]
  | Unlink self clientobj =>
    simp only [Ledger.call]
    cases hu : W.units self with
    | none => exact hL
    | some a =>
      intro O u
      have hn := hc a hu
      simp [(hL O u).1, (hL O u).2, hn.1, hn.2]
  | Remap self m =>
    simp only [Ledger.call]
    cases hu : W.units self with
    | none => exact hL
    | some a =>
      intro O u
      have hg := hc a hu
      unfold SCA_ArmatureActuator.RemapKeepsNewTarget at hg
      refine ⟨by simp [(hL O u).1], ?_⟩
      apply decide_eq_false
      by_cases hus : u = self
      · simp only [if_pos hus, (hL O u).2, Bool.false_eq_true, false_and, or_false]
        rintro ⟨h1, h2, _, h4, h5⟩
        exact h5 (hg h1 h2 h4)
      · simp only [if_neg hus, (hL O u).2, Bool.false_eq_true, not_false_eq_true]

theorem run_keeps_empty (calls : List Call) :
    ∀ (W : World) (L : Ledger), World.Clean W calls →
      (∀ O u, L.stale O u = false ∧ L.missing O u = false) →
      ∀ O u, (Ledger.run L W calls).stale O u = false ∧
        (Ledger.run L W calls).missing O u = false := by
  induction calls with
  | nil => intro W L _ hL; exact hL
  | cons c cs ih =>
    intro W L hc hL
    exact ih (W.call c) (L.call W c) hc.2 (call_keeps_empty W L c hc.1 hL)

/-- C1 (amended): start from a scene with no unit and nothing registered and
make any sequence of `Construct`, `Clone`, `Unlink` and `Remap` calls. For every
scene object `O` and unit `u`: if (`O`, `u`) is not a stale pair, `u` registered
with `O` implies that `u` is live and its target or subtarget is `O`; if (`O`,
`u`) is not a missing pair, `u` live with target or subtarget `O` implies that `u`
is registered with `O`. The stale pairs are those (`D`, `u`) where `Unlink(D)` was
called on `u` while it referred to `D` and `u` has not been remapped onto `D`
since; without `Unlink` calls there is none. The missing pairs are (subtarget,
replica) after a `Clone` of a unit with a subtarget, and (new target, `u`) after a
`Remap` whose subtarget step unregistered `u` from its new target; such a pair
stays missing only while `u` keeps that reference in a field that later `Remap`
calls leave without a non-null image, and no later `Remap` registers `u` with
that object or `Unlink` clears the reference. When every call is clean (any
`Construct`, `Clone` of a unit without subtarget, `Unlink` of an object the unit
does not refer to, `Remap` that keeps the new target), there is no excepted pair
and the registered set of every `O` equals the set of live units that refer to
`O`. With `Construct`, `Unlink` and such `Remap` calls only, every live unit is
registered with what it refers to. `Unlink` itself changes no registration. -/
theorem registration_invariant (W : World) (calls : List Call) (hinit : W.Initial) :
    (∀ O u : Ptr, O ≠ NULL →
      ((Ledger.run Ledger.empty W calls).stale O u = false →
        (W.run calls).scene.registered O u → (W.run calls).refers O u) ∧
      ((Ledger.run Ledger.empty W calls).missing O u = false →
        (W.run calls).refers O u → (W.run calls).scene.registered O u)) ∧
    ((∀ c ∈ calls, c.NoUnlink) →
      ∀ O u, (Ledger.run Ledger.empty W calls).stale O u = false) ∧
    (World.Clean W calls →
      (∀ O u, (Ledger.run Ledger.empty W calls).stale O u = false ∧
        (Ledger.run Ledger.empty W calls).missing O u = false) ∧
      (W.run calls).RegistrationInvariant) ∧
    (World.Admissible true W calls → (W.run calls).Tracked) ∧
    (∀ (V : World) (self D : Ptr), (V.call (Call.Unlink self D)).scene = V.scene) := by
  have hs := run_sound calls W Ledger.empty (initial_sound W Ledger.empty hinit)
  refine ⟨hs, ?_, ?_, run_keeps_tracked calls W (initial_tracked W hinit), ?_⟩
  · intro hc
    exact run_keeps_no_stale calls W Ledger.empty hc (fun _ _ => rfl)
  · intro hc
    have he := run_keeps_empty calls W Ledger.empty hc (fun _ _ => ⟨rfl, rfl⟩)
    refine ⟨he, ?_⟩
    intro O u hO
    exact ⟨(hs O u hO).1 (he O u).1, (hs O u hO).2 (he O u).2⟩
  · intro V self D
    simp only [World.call]
    cases V.units self <;> rfl

/-- Witness of `registration_invariant`: unit 10 (target 1, subtarget 2) is
constructed and cloned to 11, unit 10 is unlinked from object 1, and the replica
is remapped with the map that sends only 2 to 4. The only excepted pair left is
the stale pair (1, 10); the replica, no longer missing at its subtarget, is
registered with its new subtarget 4 and with its target 1. -/
theorem registration_invariant_witness :
    sampleWorld.Initial ∧
    (sampleWorld.run [sampleConstruct, Call.Clone 10 11, Call.Unlink 10 1,
      Call.Remap 11 (ObjMap.single 2 4)]).scene.registered 4 11 ∧
    (sampleWorld.run [sampleConstruct, Call.Clone 10 11, Call.Unlink 10 1,
      Call.Remap 11 (ObjMap.single 2 4)]).scene.registered 1 11 ∧
    (Ledger.run Ledger.empty sampleWorld [sampleConstruct, Call.Clone 10 11, Call.Unlink 10 1,
      Call.Remap 11 (ObjMap.single 2 4)]).stale 1 10 = true ∧
    (Ledger.run Ledger.empty sampleWorld [sampleConstruct, Call.Clone 10 11, Call.Unlink 10 1,
      Call.Remap 11 (ObjMap.single 2 4)]).missing 2 11 = false ∧
    (Ledger.run Ledger.empty sampleWorld [sampleConstruct, Call.Clone 10 11]).missing 2 11
      = true :=
  ⟨⟨fun _ => rfl, fun _ => rfl⟩,
   ((registration_invariant sampleWorld [sampleConstruct, Call.Clone 10 11, Call.Unlink 10 1,
      Call.Remap 11 (ObjMap.single 2 4)] ⟨fun _ => rfl, fun _ => rfl⟩).1 4 11 (by decide)).2
      (by decide) ⟨_, rfl, Or.inr rfl⟩,
   ((registration_invariant sampleWorld [sampleConstruct, Call.Clone 10 11, Call.Unlink 10 1,
      Call.Remap 11 (ObjMap.single 2 4)] ⟨fun _ => rfl, fun _ => rfl⟩).1 1 11 (by decide)).2
      (by decide) ⟨_, rfl, Or.inl rfl⟩,
   by decide, by decide, by decide⟩

end ArmatureActuator
